import Mathlib

/-!
Verification of the neodepends Python export / filtering tools.

Shallow embedding of `src/tools/filter_false_positives.py` and
`src/tools/neodepends_python_export.py`.  Entity ids (BLOBs in the SQLite
schema) are modelled as `Nat`; rows are `Int` (SQLite `INT`); the three
relations `entities` / `deps` / `contents` are lists of records.  Python
dict lookups become `List.find?` on the primary key.  Parent-chain walks
that the Python code performs with unguarded `while` loops are modelled
with a fuel argument set high enough that the fuel can only run out on a
cyclic parent chain, where the Python code diverges.
-/

namespace NeoDepends

/-- One row of the `entities` table (columns used by the tools:
`id, parent_id, kind, name, content_id, start_row, end_row`). -/
structure Entity where
  id : Nat
  parentId : Option Nat
  kind : String
  name : String
  contentId : Nat
  startRow : Int
  endRow : Int
deriving Repr, DecidableEq

/-- One row of the `deps` table (`src, tgt, kind, row, commit_id`). -/
structure Dep where
  src : Nat
  tgt : Nat
  kind : String
  row : Int
  commitId : Option Nat
deriving Repr, DecidableEq

/-- A fact base: the three relations produced by the analysis engine. -/
structure Db where
  entities : List Entity
  deps : List Dep
  contents : List (Nat × String)
deriving Repr, DecidableEq

/-- Primary-key lookup in the `entities` relation (the Python code loads the
table into a dict keyed by `id`; `id` is a PRIMARY KEY, so first match is
the row). -/
def findEntity (es : List Entity) (i : Nat) : Option Entity :=
  es.find? (fun e => e.id == i)

/-! ## filter_false_positives.py -/

/-- Embedding of `is_false_positive_sibling_method`: source and target are
both Methods with the same parent and the dependency row sits on the
source's start or end row.  Both size branches of the Python code reduce
to the same boundary test. -/
def is_false_positive_sibling_method (es : List Entity) (srcId tgtId : Nat)
    (depRow : Int) : Bool :=
  match findEntity es srcId with
  | none => false
  | some src =>
    if src.kind ≠ "Method" then false
    else match findEntity es tgtId with
      | none => false
      | some tgt =>
        if tgt.kind ≠ "Method" then false
        else if src.parentId ≠ tgt.parentId then false
        else
          let methodSize : Int := src.endRow - src.startRow + 1
          if methodSize ≤ 3 then
            depRow == src.startRow || depRow == src.endRow
          else
            depRow == src.endRow || depRow == src.startRow

/-- Embedding of `is_false_positive_parent_class`: a Method depending on its
own parent Class at a definition-boundary row. -/
def is_false_positive_parent_class (es : List Entity) (srcId tgtId : Nat)
    (depRow : Int) : Bool :=
  match findEntity es srcId with
  | none => false
  | some src =>
    if src.kind ≠ "Method" then false
    else match findEntity es tgtId with
      | none => false
      | some tgt =>
        if tgt.kind ≠ "Class" then false
        else if src.parentId ≠ some tgtId then false
        else
          let methodSize : Int := src.endRow - src.startRow + 1
          if methodSize ≤ 3 then
            depRow == src.startRow || depRow == src.endRow
          else
            depRow == src.endRow || depRow == src.startRow

/-- Embedding of `is_false_positive_field_sibling`: a Field depending on a
sibling Method at the field's own start or end row. -/
def is_false_positive_field_sibling (es : List Entity) (srcId tgtId : Nat)
    (depRow : Int) : Bool :=
  match findEntity es srcId with
  | none => false
  | some src =>
    if src.kind ≠ "Field" then false
    else match findEntity es tgtId with
      | none => false
      | some tgt =>
        if tgt.kind ≠ "Method" then false
        else if src.parentId ≠ tgt.parentId then false
        else depRow == src.startRow || depRow == src.endRow

/-- The detector cascade of `filter_dependencies` (first match wins): the
reason string attached to a flagged dependency, `none` when kept.  Like the
Python loop it depends only on `(src, tgt, row)` of a dependency. -/
def classifyDep (es : List Entity) (srcId tgtId : Nat) (depRow : Int) :
    Option String :=
  if is_false_positive_sibling_method es srcId tgtId depRow then
    some "sibling_method"
  else if is_false_positive_parent_class es srcId tgtId depRow then
    some "parent_class"
  else if is_false_positive_field_sibling es srcId tgtId depRow then
    some "field_to_method"
  else none

/-- The list of flagged dependency rows (`false_positives` in
`filter_dependencies`), in fact-base order. -/
def falsePositives (db : Db) : List Dep :=
  db.deps.filter (fun d => (classifyDep db.entities d.src d.tgt d.row).isSome)

/-- The surviving `deps` rows of the working copy after the `DELETE FROM
deps WHERE src = ? AND tgt = ? AND kind = ? AND row = ?` loop: a row is
deleted when some flagged row matches it on all four delete columns
(`commit_id` is not part of the delete key). -/
def cleanedDeps (db : Db) : List Dep :=
  db.deps.filter (fun d =>
    !((falsePositives db).any (fun fp =>
      fp.src == d.src && fp.tgt == d.tgt && fp.kind == d.kind && fp.row == d.row)))

/-- Embedding of `filter_dependencies`: the procedure copies the input
database to the output path (`shutil.copy2`) and deletes flagged rows from
the copy's `deps` relation only.  Result: `(input database, cleaned working
copy)`. -/
def filter_dependencies (input : Db) : Db × Db :=
  let workingCopy : Db := input
  let cleaned : Db :=
    { entities := workingCopy.entities
      contents := workingCopy.contents
      deps := cleanedDeps workingCopy }
  (input, cleaned)

/-! ## String helpers

Python string predicates (`in`, `startswith`, `endswith`) modelled over the
character list of a `String`, so that everything reduces in the kernel. -/

/-- Python `c in s` for a single character. -/
def strContainsChar (s : String) (c : Char) : Bool :=
  s.data.contains c

/-- Python `s.endswith(suffix)`. -/
def strEndsWith (s suffix : String) : Bool :=
  suffix.data.isSuffixOf s.data

/-- Python `s.startswith(prefixStr)`. -/
def strStartsWith (s prefixStr : String) : Bool :=
  prefixStr.data.isPrefixOf s.data

/-- Lexicographic strict comparison of character lists by code point (the
order Python's `sorted` uses on strings). -/
def charListLT : List Char → List Char → Bool
  | [], [] => false
  | [], _ :: _ => true
  | _ :: _, [] => false
  | a :: as, b :: bs =>
    decide (a.toNat < b.toNat) || (a == b && charListLT as bs)

/-- Total order used for Python's `sorted` on strings. -/
def strLE (a b : String) : Bool :=
  a == b || charListLT a.data b.data

/-! ## Export configuration (CLI surface consumed by the export functions) -/

/-- The parameters threaded through `export_dv8_full_project` /
`export_dv8_file_level`. -/
structure ExportCfg where
  focusPrefix : Option String
  includeRootPy : Bool
  includeExternalTargets : Bool
  includeExternalTargetFiles : Bool
  includeSelfEdges : Bool
  alignHandcount : Bool
  dv8Hierarchy : String
deriving Repr, DecidableEq

/-- The local `in_focus(file_name)` predicate shared by the export
functions: in aligned mode package initializers are excluded, then the
focus prefix / root-`.py` rules apply. -/
def inFocus (cfg : ExportCfg) (fileName : String) : Bool :=
  if cfg.alignHandcount && strEndsWith fileName "/__init__.py" then false
  else match cfg.focusPrefix with
    | none => true
    | some p =>
      if strStartsWith fileName p then true
      else cfg.includeRootPy && !strContainsChar fileName '/'
        && strEndsWith fileName ".py"

/-! ## Parent-chain walks (`neodepends_python_export.py`) -/

/-- Fuel-driven body of `_ancestor_file_id`'s `while` loop.  The Python
loop has no cycle guard and diverges on a cyclic parent chain; with fuel
`length + 1` the fuel can only run out on such a cycle. -/
def ancestorFileIdAux (es : List Entity) : Nat → Entity → Option Nat
  | 0, _ => none
  | fuel + 1, cur =>
    if cur.kind == "File" then some cur.id
    else match cur.parentId with
      | none => none
      | some pid =>
        match findEntity es pid with
        | none => none
        | some p => ancestorFileIdAux es fuel p

/-- Embedding of `_ancestor_file_id` (the memo dict is a pure cache). -/
def ancestor_file_id (es : List Entity) (eid : Nat) : Option Nat :=
  match findEntity es eid with
  | none => none
  | some e => ancestorFileIdAux es (es.length + 1) e

/-- Lookup in the `file_name_by_id` dict (built from File entities only). -/
def fileNameById (es : List Entity) (fid : Nat) : Option String :=
  match findEntity es fid with
  | none => none
  | some e => if e.kind == "File" then some e.name else none

/-- Fuel-driven body of `_owner_class_entity`'s `while` loop. -/
def ownerClassAux (es : List Entity) : Nat → Entity → Option Entity
  | 0, _ => none
  | fuel + 1, cur =>
    match cur.parentId with
    | none => none
    | some pid =>
      match findEntity es pid with
      | none => none
      | some p =>
        if p.kind == "Class" then some p
        else if p.kind == "File" then none
        else ownerClassAux es fuel p

/-- Embedding of `_owner_class_entity`: nearest Class ancestor, `none` when
a File is reached first. -/
def owner_class_entity (es : List Entity) (eid : Nat) : Option Entity :=
  match findEntity es eid with
  | none => none
  | some e => ownerClassAux es (es.length + 1) e

/-- Fuel-driven body of `_ancestor_class_name`'s `while` loop. -/
def ancestorClassNameAux (es : List Entity) : Nat → Entity → Option String
  | 0, _ => none
  | fuel + 1, cur =>
    match cur.parentId with
    | none => none
    | some pid =>
      match findEntity es pid with
      | none => none
      | some p =>
        if p.kind == "Class" then some p.name
        else ancestorClassNameAux es fuel p

/-- Embedding of `_ancestor_class_name`. -/
def ancestor_class_name (es : List Entity) (eid : Nat) : Option String :=
  match findEntity es eid with
  | none => none
  | some e => ancestorClassNameAux es (es.length + 1) e

/-- Embedding of `_display_name`.  The Python function indexes
`entities[entity_id]` unconditionally; callers check membership first, so
the `none` branch is unreachable in the pipeline and yields `""`.  The
Python truthiness test `if class_name:` also rejects an empty class name. -/
def display_name (es : List Entity) (eid : Nat) : String :=
  match findEntity es eid with
  | none => ""
  | some ent =>
    if ent.kind == "Method" || ent.kind == "Function" || ent.kind == "Field" then
      match ancestor_class_name es eid with
      | some cn => if cn == "" then ent.name else cn ++ "." ++ ent.name
      | none => ent.name
    else ent.name

/-- Fuel-and-seen-driven body of `_is_nested_method`'s walk.  `entName` is
the name of the original entity (the Python code compares `parent.name ==
ent.name` against the original entity throughout the walk).  The `seen`
guard makes the Python loop terminate on cycles, so fuel `length + 2` is
always sufficient. -/
def isNestedAux (es : List Entity) (entName : String) :
    Nat → List Nat → Entity → Bool
  | 0, _, _ => false
  | fuel + 1, seen, cur =>
    match cur.parentId with
    | none => false
    | some pid =>
      match findEntity es pid with
      | none => false
      | some parent =>
        if seen.contains cur.id then false
        else
          let seen' := cur.id :: seen
          if parent.kind == "Method" || parent.kind == "Function" then
            if parent.name == entName then isNestedAux es entName fuel seen' parent
            else true
          else if parent.kind == "Class" || parent.kind == "File" then false
          else isNestedAux es entName fuel seen' parent

/-- Embedding of `_is_nested_method`: a Method/Function lexically contained
in another Method/Function, except that a same-named Method/Function parent
is treated as a duplicate-tagging artifact and the walk continues past it. -/
def is_nested_method (es : List Entity) (eid : Nat) : Bool :=
  match findEntity es eid with
  | none => false
  | some ent =>
    if ent.kind == "Method" || ent.kind == "Function" then
      isNestedAux es ent.name (es.length + 2) [] ent
    else false

/-! ## Class chains and naming schemes -/

/-- Fuel-driven body of `_class_chain_names`'s `while` loop, producing the
chain of enclosing Class names from the nearest outwards. -/
def classChainAux (es : List Entity) : Nat → Entity → List String
  | 0, _ => []
  | fuel + 1, cur =>
    match cur.parentId with
    | none => []
    | some pid =>
      match findEntity es pid with
      | none => []
      | some parent =>
        (if parent.kind == "Class" then [parent.name] else []) ++
          classChainAux es fuel parent

/-- Python's adjacent-duplicate guard at the end of `_class_chain_names`. -/
def dedupAdjacent (l : List String) : List String :=
  l.foldl (fun acc n =>
    match acc.getLast? with
    | some m => if m == n then acc else acc ++ [n]
    | none => [n]) []

/-- Embedding of `_class_chain_names`: containing class chain (outer →
inner), including the entity itself when it is a Class, with adjacent
duplicate names collapsed. -/
def class_chain_names (es : List Entity) (eid : Nat) : List String :=
  match findEntity es eid with
  | none => dedupAdjacent []
  | some ent =>
    let chain := (classChainAux es (es.length + 1) ent).reverse ++
      (if ent.kind == "Class" then [ent.name] else [])
    dedupAdjacent chain

/-- Embedding of `_segments_from_class_chain`. -/
def segments_from_class_chain (chain : List String) : List String :=
  match chain with
  | [] => []
  | c :: rest => rest.foldl (fun acc n => acc ++ ["inner_classes", n]) [c]

/-- Embedding of `_structured_file_node`. -/
def structured_file_node (fileName : String) : String :=
  fileName ++ "/self (File)"

/-- Embedding of `_handcount_file_node`. -/
def handcount_file_node (fileName : String) : String :=
  fileName ++ "/module (Module)"

/-- Embedding of `_aligned_file_node`. -/
def aligned_file_node (fileName : String) (hier : String) : String :=
  if hier == "handcount" then handcount_file_node fileName
  else structured_file_node fileName

/-! ## Class-folder builder (`_build_structured_class_folder_map`) -/

/-- The `file_id_by_class` dict of `_build_structured_class_folder_map`:
for a Class entity of an in-focus file, its ancestor File id.  Mirrors the
collection loop (kind = Class, resolvable file, non-empty in-focus name). -/
def focusClassFileId (es : List Entity) (inF : String → Bool) (cid : Nat) :
    Option Nat :=
  match findEntity es cid with
  | none => none
  | some ent =>
    if ent.kind == "Class" then
      match ancestor_file_id es cid with
      | none => none
      | some fid =>
        match fileNameById es fid with
        | none => none
        | some fname => if fname ≠ "" && inF fname then some fid else none
    else none

/-- The `class_ids` set: ids of in-focus Class entities. -/
def classIds (es : List Entity) (inF : String → Bool) : Finset Nat :=
  ((es.filter (fun e => (focusClassFileId es inF e.id).isSome)).map
    (fun e => e.id)).toFinset

/-- The `local_bases` map of `_build_structured_class_folder_map`: Extend
targets of `cid` that are in-focus classes of the same file, self-extension
excluded. -/
def localBases (es : List Entity) (depRows : List Dep) (inF : String → Bool)
    (cid : Nat) : List Nat :=
  (depRows.filterMap (fun d =>
    if d.kind == "Extend" && d.src == cid && d.src != d.tgt then
      match focusClassFileId es inF d.src, focusClassFileId es inF d.tgt with
      | some sf, some tf => if sf == tf then some d.tgt else none
      | _, _ => none
    else none)).dedup

/-- The `local_base_of` map: the unique local base when exactly one exists. -/
def localBaseOf (es : List Entity) (depRows : List Dep) (inF : String → Bool)
    (cid : Nat) : Option Nat :=
  let bases := localBases es depRows inF cid
  if bases.length = 1 then bases.head? else none

/-- The lexical-nesting test of `folder_for_class` (branch 1): the class's
parent entity is a Class whose `file_id_by_class` entry equals this
class's. -/
def lexicalParent (es : List Entity) (inF : String → Bool) (cid : Nat) :
    Option Nat :=
  match findEntity es cid with
  | none => none
  | some ent =>
    match ent.parentId with
    | none => none
    | some pid =>
      match findEntity es pid with
      | none => none
      | some p =>
        if p.kind == "Class" &&
            focusClassFileId es inF pid == focusClassFileId es inF cid then
          some pid
        else none

/-- Fuel-driven embedding of `folder_for_class`.  `avoid` is the `visiting`
set; a revisited class (or a class outside `class_ids`, on which the Python
code never recurses) short-circuits to its bare name.  Each recursive call
inserts an element of `classIds \ avoid` into `avoid`, so fuel
`(classIds).card + 1` never runs out. -/
def folderForClassAux (es : List Entity) (inF : String → Bool)
    (lbo : Nat → Option Nat) : Nat → Finset Nat → Nat → List String
  | 0, _, cid =>
    match findEntity es cid with
    | none => ["<unknown>"]
    | some ent => [ent.name]
  | fuel + 1, avoid, cid =>
    match findEntity es cid with
    | none => ["<unknown>"]
    | some ent =>
      if cid ∈ avoid ∨ cid ∉ classIds es inF then [ent.name]
      else
        match lexicalParent es inF cid with
        | some pid =>
          folderForClassAux es inF lbo fuel (insert cid avoid) pid ++
            ["inner_classes", ent.name]
        | none =>
          match lbo cid with
          | some bid =>
            folderForClassAux es inF lbo fuel (insert cid avoid) bid ++
              ["subclasses", ent.name]
          | none => [ent.name]

/-- `folder_for_class` with the fuel fixed at its sufficient bound. -/
def folder_for_class (es : List Entity) (inF : String → Bool)
    (lbo : Nat → Option Nat) (avoid : Finset Nat) (cid : Nat) : List String :=
  folderForClassAux es inF lbo ((classIds es inF).card + 1) avoid cid

/-- The resulting class-folder map (`memo` after the final loop of
`_build_structured_class_folder_map`): defined exactly on `class_ids`.  The
Python memoization is modelled as pure recomputation, which coincides with
the memoized run on acyclic (forest-shaped) fact bases. -/
def classFolderLookup (es : List Entity) (inF : String → Bool)
    (lbo : Nat → Option Nat) (cid : Nat) : Option (List String) :=
  if cid ∈ classIds es inF then some (folder_for_class es inF lbo ∅ cid)
  else none

/-- Decidable witness of the spec's forest invariant for the class-folder
recursion: a rank function under which every nesting step the recursion can
take (to the lexical parent, or else to the unique local base) strictly
decreases.  On a fact base whose parent/extend structure is acyclic such a
rank always exists; the duplicate-tagging cycles the Python code guards
against with its `visiting` set violate it. -/
def rankOk (es : List Entity) (depRows : List Dep) (inF : String → Bool)
    (rank : Nat → Nat) (cid : Nat) : Bool :=
  match lexicalParent es inF cid with
  | some pid => decide (rank pid < rank cid)
  | none =>
    match localBaseOf es depRows inF cid with
    | some bid => decide (rank bid < rank cid)
    | none => true

/-- The `local_bases` map of `_build_local_base_dotted_map` (used by the
flat scheme).  Unlike the structured builder this loop has no self-extension
guard. -/
def localBasesFlat (es : List Entity) (depRows : List Dep)
    (inF : String → Bool) (cid : Nat) : List Nat :=
  (depRows.filterMap (fun d =>
    if d.kind == "Extend" && d.src == cid then
      match focusClassFileId es inF d.src, focusClassFileId es inF d.tgt with
      | some sf, some tf => if sf == tf then some d.tgt else none
      | _, _ => none
    else none)).dedup

/-- Embedding of `_build_local_base_dotted_map`: the dotted name of the
unique local base class, when exactly one exists. -/
def localBaseDottedLookup (es : List Entity) (depRows : List Dep)
    (inF : String → Bool) (cid : Nat) : Option String :=
  let bases := localBasesFlat es depRows inF cid
  if bases.length = 1 then
    match bases.head? with
    | none => none
    | some bid =>
      let chain := class_chain_names es bid
      some (if chain ≠ [] then String.intercalate "." chain
        else (match findEntity es bid with
          | some b => b.name
          | none => ""))
  else none

/-! ## The three naming schemes -/

/-- Embedding of `_structured_name`.  `classFolder` is the optional
`class_folder_by_id` dict; when absent (or missing the class) the lexical
chain is used. -/
def structured_name (es : List Entity)
    (classFolder : Option (Nat → Option (List String))) (eid : Nat) :
    Option String :=
  match ancestor_file_id es eid with
  | none => none
  | some fid =>
    match fileNameById es fid with
    | none => none
    | some fileName =>
      if fileName == "" then none
      else match findEntity es eid with
        | none => none
        | some ent =>
          if ent.kind == "File" then some (structured_file_node fileName)
          else
            let ownerCls : Option Entity :=
              if ent.kind == "Class" then some ent
              else owner_class_entity es eid
            let classSegments : List String :=
              match ownerCls with
              | none => []
              | some oc =>
                match classFolder with
                | some cf =>
                  match cf oc.id with
                  | some segs => segs
                  | none => segments_from_class_chain (class_chain_names es oc.id)
                | none => segments_from_class_chain (class_chain_names es oc.id)
            let classPrefix :=
              if classSegments ≠ [] then
                fileName ++ "/" ++ String.intercalate "/" classSegments
              else fileName
            if ent.kind == "Class" then
              if classSegments = [] then none
              else some (classPrefix ++ "/self (Class)")
            else if ent.kind == "Field" then
              if classSegments = [] then none
              else some (classPrefix ++ "/fields/" ++ ent.name ++ " (Field)")
            else if ent.kind == "Function" then
              some (fileName ++ "/functions/" ++ ent.name ++ " (Function)")
            else if ent.kind == "Method" then
              if classSegments = [] then
                some (fileName ++ "/functions/" ++ ent.name ++ " (Function)")
              else if ent.name == "__init__" || ent.name == "__new__" then
                some (classPrefix ++ "/constructors/" ++ ent.name ++ " (Constructor)")
              else some (classPrefix ++ "/methods/" ++ ent.name ++ " (Method)")
            else some (fileName ++ "::" ++ display_name es eid)

/-- Embedding of `_flat_name`.  `localBaseDotted` is the optional
`local_base_dotted_by_class_id` dict. -/
def flat_name (es : List Entity)
    (localBaseDotted : Option (Nat → Option String)) (eid : Nat) :
    Option String :=
  match ancestor_file_id es eid with
  | none => none
  | some fid =>
    match fileNameById es fid with
    | none => none
    | some fileName =>
      if fileName == "" then none
      else match findEntity es eid with
        | none => none
        | some ent =>
          if ent.kind == "File" then some (structured_file_node fileName)
          else
            let cls : Option Entity :=
              if ent.kind == "Class" then some ent
              else owner_class_entity es eid
            let clsDotted : Option String :=
              match cls with
              | none => none
              | some c =>
                let chain := class_chain_names es c.id
                some (if chain ≠ [] then String.intercalate "." chain else c.name)
            if ent.kind == "Class" then
              match clsDotted with
              | none => none
              | some dotted =>
                match localBaseDotted with
                | some lbd =>
                  match lbd ent.id with
                  | some base =>
                    some (fileName ++ "/+SUBCLASSES/" ++ base ++ "/-self " ++
                      dotted ++ " (Class)")
                  | none => some (fileName ++ "/-self " ++ dotted ++ " (Class)")
                | none => some (fileName ++ "/-self " ++ dotted ++ " (Class)")
            else if ent.kind == "Field" then
              match clsDotted with
              | none => none
              | some dotted =>
                some (fileName ++ "/+FIELDS/" ++ dotted ++ "/" ++ ent.name ++
                  " (Field)")
            else if ent.kind == "Method" then
              match clsDotted with
              | none =>
                some (fileName ++ "/+FUNCTIONS/" ++ ent.name ++ " (Function)")
              | some dotted =>
                if ent.name == "__init__" || ent.name == "__new__" then
                  some (fileName ++ "/+CONSTRUCTORS/" ++ dotted ++ "/" ++
                    ent.name ++ " (Constructor)")
                else
                  some (fileName ++ "/+METHODS/" ++ dotted ++ "/" ++ ent.name ++
                    " (Method)")
            else some (fileName ++ "::" ++ display_name es eid)

/-- Embedding of `_handcount_name` (the legacy/compat scheme). -/
def handcount_name (es : List Entity) (eid : Nat) : Option String :=
  match ancestor_file_id es eid with
  | none => none
  | some fid =>
    match fileNameById es fid with
    | none => none
    | some fileName =>
      if fileName == "" then none
      else match findEntity es eid with
        | none => none
        | some ent =>
          if ent.kind == "File" then some (handcount_file_node fileName)
          else
            let cls : Option Entity := owner_class_entity es eid
            let clsDotted : Option String :=
              match cls with
              | none => none
              | some c =>
                let chain := class_chain_names es c.id
                if chain ≠ [] then some (String.intercalate "." chain) else none
            if ent.kind == "Class" then
              let chain := class_chain_names es eid
              if chain = [] then none
              else some (fileName ++ "/CLASSES/" ++ String.intercalate "." chain ++
                " (Class)")
            else if ent.kind == "Field" then
              match cls, clsDotted with
              | some _, some dotted =>
                some (fileName ++ "/CLASSES/" ++ dotted ++ "/FIELDS/" ++
                  ent.name ++ " (Field)")
              | _, _ => none
            else if ent.kind == "Method" then
              match cls with
              | none => some (fileName ++ "/FUNCTIONS/" ++ ent.name ++ " (Function)")
              | some _ =>
                match clsDotted with
                | none => none
                | some dotted =>
                  if ent.name == "__init__" || ent.name == "__new__" then
                    some (fileName ++ "/CLASSES/" ++ dotted ++ "/CONSTRUCTORS/" ++
                      ent.name ++ " (Constructor)")
                  else
                    some (fileName ++ "/CLASSES/" ++ dotted ++ "/METHODS/" ++
                      ent.name ++ " (Method)")
            else some (fileName ++ "::" ++ display_name es eid)

/-- Embedding of `_aligned_name`, with the two optional per-scheme maps
passed explicitly (the Python code precomputes them per export run). -/
def alignedNameWith (es : List Entity) (hier : String)
    (cf : Option (Nat → Option (List String)))
    (lbd : Option (Nat → Option String)) (eid : Nat) : Option String :=
  if hier == "handcount" then handcount_name es eid
  else if hier == "flat" then flat_name es lbd eid
  else structured_name es cf eid

/-! ## Generic insertion sort (model of Python `sorted`)

Only the multiset of elements matters for the properties proved below, so a
simple insertion sort stands in for Python's stable sort. -/

/-- Insert `x` into `l` before the first element `y` with `le x y`. -/
def insertBy (le : α → α → Bool) (x : α) : List α → List α
  | [] => [x]
  | y :: ys => if le x y then x :: y :: ys else y :: insertBy le x ys

/-- Insertion sort by a boolean comparison. -/
def sortBy (le : α → α → Bool) (l : List α) : List α :=
  l.foldr (insertBy le) []

theorem insertBy_perm (le : α → α → Bool) (x : α) (l : List α) :
    (insertBy le x l).Perm (x :: l) := by
  induction l with
  | nil => simp [insertBy]
  | cons y ys ih =>
    simp only [insertBy]
    split
    · exact List.Perm.refl _
    · exact ((ih.cons y).trans (List.Perm.swap x y ys))

theorem sortBy_perm (le : α → α → Bool) (l : List α) :
    (sortBy le l).Perm l := by
  induction l with
  | nil => simp [sortBy]
  | cons x xs ih =>
    simpa [sortBy] using (insertBy_perm le x (sortBy le xs)).trans (ih.cons x)

theorem mem_sortBy {le : α → α → Bool} {l : List α} {a : α} :
    a ∈ sortBy le l ↔ a ∈ l :=
  (sortBy_perm le l).mem_iff

/-- An edge of the internal edge lists: `(src_name, tgt_name, dep_kind)`. -/
abbrev Edge3 := String × String × String

/-- Lexicographic comparison on edges (Python tuple comparison). -/
def edgeLE (a b : Edge3) : Bool :=
  charListLT a.1.data b.1.data ||
    (a.1 == b.1 && (charListLT a.2.1.data b.2.1.data ||
      (a.2.1 == b.2.1 && strLE a.2.2 b.2.2)))

/-- Python `sorted(set(edges))`: deduplicate, then sort. -/
def sortedDedup (l : List Edge3) : List Edge3 :=
  sortBy edgeLE l.dedup

/-! ## Matrix assembly (`_dv8_build_dependency_json`) -/

/-- One emitted matrix cell. -/
structure Dv8Cell where
  src : Nat
  dest : Nat
  values : List (String × Nat)
deriving Repr, DecidableEq

/-- The matrix artifact (`@schemaVersion`, `name`, `variables`, `cells`);
the `variables` array is the field `vars` (the JSON key is not a valid Lean
field name).  Kind counts are floats in the JSON but every update is
`+ 1.0` from `0.0`, so they are exact naturals. -/
structure Dv8Matrix where
  schemaVersion : String
  name : String
  vars : List String
  cells : List Dv8Cell
deriving Repr, DecidableEq

/-- Index of a variable in the `idx` dict (position of its first — and,
since the builder keeps `variables` duplicate-free, only — occurrence). -/
def varIdx (vars : List String) (v : String) : Option Nat :=
  match vars with
  | [] => none
  | u :: rest => if u == v then some 0 else (varIdx rest v).map (· + 1)

/-- The `ensure` closure of `_dv8_build_dependency_json`: index of `v`,
appending it when new. -/
def ensureVar (vars : List String) (v : String) : List String × Nat :=
  match varIdx vars v with
  | some i => (vars, i)
  | none => (vars ++ [v], vars.length)

/-- Increment the count of kind `k` in a cell's value map (`vals[kind] =
vals.get(kind, 0) + 1`), preserving insertion order of kinds. -/
def bumpKind (vals : List (String × Nat)) (k : String) : List (String × Nat) :=
  if vals.any (fun p => p.1 == k) then
    vals.map (fun p => if p.1 == k then (p.1, p.2 + 1) else p)
  else vals ++ [(k, 1)]

/-- Accumulate one observed edge into the `cell_map` association list
(`cell_map.setdefault(key, {})` followed by the kind bump). -/
def addCell (cells : List ((Nat × Nat) × List (String × Nat)))
    (key : Nat × Nat) (k : String) : List ((Nat × Nat) × List (String × Nat)) :=
  if cells.any (fun c => c.1 == key) then
    cells.map (fun c => if c.1 == key then (c.1, bumpKind c.2 k) else c)
  else cells ++ [(key, bumpKind [] k)]

/-- Comparison on cell keys (ascending `(src, dest)`). -/
def cellKeyLE (a b : Nat × Nat) : Bool :=
  a.1 < b.1 || (a.1 == b.1 && a.2 ≤ b.2)

/-- The count stored for kind `k` in a value map (0 when absent). -/
def valLookup (vals : List (String × Nat)) (k : String) : Nat :=
  match vals.find? (fun p => p.1 == k) with
  | some p => p.2
  | none => 0

/-- The count stored for `(key, k)` in the cell map (0 when absent). -/
def cellVal (cells : List ((Nat × Nat) × List (String × Nat)))
    (key : Nat × Nat) (k : String) : Nat :=
  match cells.find? (fun c => c.1 == key) with
  | some c => valLookup c.2 k
  | none => 0

/-- The fold state of `_dv8_build_dependency_json`: variables so far and
the cell map. -/
def buildStep (st : List String × List ((Nat × Nat) × List (String × Nat)))
    (e : Edge3) : List String × List ((Nat × Nat) × List (String × Nat)) :=
  let r1 := ensureVar st.1 e.1
  let r2 := ensureVar r1.1 e.2.1
  (r2.1, addCell st.2 (r1.2, r2.2) e.2.2)

/-- Invariant of the `_dv8_build_dependency_json` fold over the already
processed prefix `P`: the variables list is duplicate-free and contains
every processed endpoint, cell keys and per-cell kind keys are
duplicate-free, and every stored count equals the number of processed
edges mapping to that `(source-index, destination-index, kind)`. -/
def BuildInv (P : List Edge3)
    (st : List String × List ((Nat × Nat) × List (String × Nat))) : Prop :=
  st.1.Nodup ∧
  (∀ x ∈ P, x.1 ∈ st.1 ∧ x.2.1 ∈ st.1) ∧
  (st.2.map (fun c => c.1)).Nodup ∧
  (∀ c ∈ st.2, (c.2.map (fun p => p.1)).Nodup) ∧
  (∀ s t k, cellVal st.2 (s, t) k = (P.filter (fun x =>
      varIdx st.1 x.1 == some s && varIdx st.1 x.2.1 == some t &&
        x.2.2 == k)).length)

/-- Embedding of `_dv8_build_dependency_json`. -/
def dv8_build_dependency_json (name : String) (edges : List Edge3) :
    Dv8Matrix :=
  let st := edges.foldl buildStep ([], [])
  let sorted := sortBy (fun a b => cellKeyLE a.1 b.1) st.2
  { schemaVersion := "1.0"
    name := name
    vars := st.1
    cells := sorted.map (fun c => { src := c.1.1, dest := c.1.2, values := c.2 }) }

/-! ## Deterministic variable sort keys

Python string slicing/splitting helpers, over character lists. -/

/-- Python `needle in hay` for strings. -/
def listContainsSub (hay needle : List Char) : Bool :=
  needle.isPrefixOf hay ||
    (match hay with
     | [] => false
     | _ :: t => listContainsSub t needle)

/-- Python `s.split(sep, 1)`: text before the first occurrence, and the
rest after it when the separator occurs. -/
def splitOnFirstAux (needle : List Char) (acc : List Char) :
    List Char → List Char × Option (List Char)
  | [] => (acc.reverse, none)
  | c :: t =>
    if needle.isPrefixOf (c :: t) then
      (acc.reverse, some ((c :: t).drop needle.length))
    else splitOnFirstAux needle (c :: acc) t

/-- Wrapper for `splitOnFirstAux` starting with an empty accumulator. -/
def splitOnFirst (s needle : List Char) : List Char × Option (List Char) :=
  splitOnFirstAux needle [] s

/-- Python `s.split(c)` for a single-character separator. -/
def splitChar (c : Char) : List Char → List (List Char)
  | [] => [[]]
  | x :: t =>
    let r := splitChar c t
    if x = c then [] :: r
    else match r with
      | h :: t2 => (x :: h) :: t2
      | [] => [[x]]

/-- Python `s.rsplit(c, 1)[-1]`: the text after the last occurrence of `c`
(the whole string when `c` is absent). -/
def lastSegAfter (c : Char) (l : List Char) : List Char :=
  (l.reverse.takeWhile (fun x => x ≠ c)).reverse

/-- A variable sort key: `(file-group, file-path, type-rank, owner-chain,
leaf-name)`. -/
abbrev VarSortKey := Nat × String × Nat × String × String

/-- Lexicographic comparison of sort keys. -/
def varKeyLE (a b : VarSortKey) : Bool :=
  a.1 < b.1 || (a.1 == b.1 &&
    (charListLT a.2.1.data b.2.1.data || (a.2.1 == b.2.1 &&
      (a.2.2.1 < b.2.2.1 || (a.2.2.1 == b.2.2.1 &&
        (charListLT a.2.2.2.1.data b.2.2.2.1.data || (a.2.2.2.1 == b.2.2.2.1 &&
          strLE a.2.2.2.2 b.2.2.2.2)))))))

/-- The shared "file path" extraction of the three sort keys: the prefix up
to the first `".py/"` (plus `".py"`), else the whole variable. -/
def varFilePath (var : String) : String :=
  let d := var.data
  if listContainsSub d ".py/".data then
    String.mk (splitOnFirst d ".py/".data).1 ++ ".py"
  else var

/-- The shared leaf-member extraction: last `/`-segment, cut at `" ("`. -/
def varMemberName (var : String) : String :=
  String.mk (splitOnFirst (lastSegAfter '/' var.data) " (".data).1

/-- Embedding of `_structured_var_sort_key`. -/
def structured_var_sort_key (var : String) : VarSortKey :=
  if strStartsWith var "(External " then (9, var, 9, "", var)
  else
    let filePath := varFilePath var
    let fileGroup := if strContainsChar filePath '/' then 0 else 1
    let typeRank : Nat :=
      if strEndsWith var "/self (File)" then 0
      else if listContainsSub var.data "/functions/".data then 1
      else if strEndsWith var "/self (Class)" then 2
      else if listContainsSub var.data "/constructors/".data then 3
      else if listContainsSub var.data "/methods/".data then 4
      else if listContainsSub var.data "/fields/".data then 5
      else 8
    let classChain : String :=
      if listContainsSub var.data ".py/".data then
        match (splitOnFirst var.data ".py/".data).2 with
        | none => ""
        | some rest =>
          let parts := splitChar '/' rest
          match parts with
          | [] => ""
          | p0 :: _ =>
            if String.mk p0 ≠ "functions" && String.mk p0 ≠ "self (File)" then
              if parts.length ≥ 2 then
                String.intercalate "/" ((parts.dropLast).map String.mk)
              else ""
            else ""
      else ""
    (fileGroup, filePath, typeRank, classChain, varMemberName var)

/-- Embedding of `_handcount_var_sort_key`. -/
def handcount_var_sort_key (var : String) : VarSortKey :=
  if strStartsWith var "(External " then (9, var, 9, "", var)
  else
    let filePath := varFilePath var
    let fileGroup := if strContainsChar filePath '/' then 0 else 1
    let typeRank : Nat :=
      if strEndsWith var "/module (Module)" then 0
      else if listContainsSub var.data "/FUNCTIONS/".data then 1
      else if listContainsSub var.data "/CLASSES/".data && strEndsWith var " (Class)"
          && !listContainsSub var.data "/FIELDS/".data
          && !listContainsSub var.data "/METHODS/".data
          && !listContainsSub var.data "/CONSTRUCTORS/".data then 2
      else if listContainsSub var.data "/CONSTRUCTORS/".data then 3
      else if listContainsSub var.data "/METHODS/".data then 4
      else if listContainsSub var.data "/FIELDS/".data then 5
      else 8
    let className : String :=
      if listContainsSub var.data "/CLASSES/".data then
        match (splitOnFirst var.data "/CLASSES/".data).2 with
        | none => ""
        | some after =>
          (String.mk (splitOnFirst after "/".data).1).replace " (Class)" ""
      else ""
    (fileGroup, filePath, typeRank, className, varMemberName var)

/-- Embedding of `_flat_var_sort_key`. -/
def flat_var_sort_key (var : String) : VarSortKey :=
  if strStartsWith var "(External " then (9, var, 9, "", var)
  else
    let filePath := varFilePath var
    let fileGroup := if strContainsChar filePath '/' then 0 else 1
    let typeRank : Nat :=
      if strEndsWith var "/self (File)" then 0
      else if listContainsSub var.data "/-self ".data then 1
      else if listContainsSub var.data "/+CONSTRUCTORS/".data then 2
      else if listContainsSub var.data "/+FIELDS/".data then 3
      else if listContainsSub var.data "/+METHODS/".data then 4
      else if listContainsSub var.data "/+FUNCTIONS/".data then 5
      else if listContainsSub var.data "/+SUBCLASSES/".data then 6
      else 8
    let classChain : String :=
      if listContainsSub var.data ".py/".data then
        match (splitOnFirst var.data ".py/".data).2 with
        | none => ""
        | some rest =>
          let parts := splitChar '/' rest
          if parts.length ≥ 2 then
            String.intercalate "/" ((parts.dropLast).map String.mk)
          else ""
      else ""
    (fileGroup, filePath, typeRank, classChain, varMemberName var)

/-- Embedding of `_dv8_sort_key_for_hierarchy`. -/
def dv8_sort_key_for_hierarchy (hier : String) : String → VarSortKey :=
  if hier == "handcount" then handcount_var_sort_key
  else if hier == "flat" then flat_var_sort_key
  else structured_var_sort_key

/-! ## Matrix reordering (`_dv8_reorder_dependency_json`) -/

/-- Dict-style index of a value in a list (`{v: i for i, v in enumerate}`:
last occurrence wins). -/
def dictIdx (l : List String) (v : String) : Option Nat :=
  ((l.enum.filter (fun p => p.2 == v)).getLast?).map (fun p => p.1)

/-- Embedding of `_dv8_reorder_dependency_json`: sort the variables by the
key, remap cell indices, and sort the cells by `(src, dest)`.  Empty
matrices are returned unchanged (Python's `if not variables`). -/
def dv8_reorder_dependency_json (obj : Dv8Matrix) (key : String → VarSortKey) :
    Dv8Matrix :=
  if obj.vars = [] then obj
  else
    let n := obj.vars.length
    let order := sortBy
      (fun i j => varKeyLE (key (obj.vars.getD i ""))
        (key (obj.vars.getD j ""))) (List.range n)
    let oldToNew : Nat → Nat := fun old => (order.findIdx? (fun i => i == old)).getD 0
    let newCells := obj.cells.map (fun c =>
      { src := oldToNew c.src, dest := oldToNew c.dest, values := c.values })
    { schemaVersion := obj.schemaVersion
      name := obj.name
      vars := order.map (fun i => obj.vars.getD i "")
      cells := sortBy (fun a b => cellKeyLE (a.src, a.dest) (b.src, b.dest)) newCells }

/-! ## export_dv8_full_project -/

/-- The core dependency kinds of the aligned mode. -/
def coreKinds : List String := ["Import", "Extend", "Create", "Call", "Use"]

/-- Membership of an entity in `focus_entity_ids` of
`export_dv8_full_project`: one of the five exported kinds, belonging to an
in-focus file. -/
def isFocusEntity (es : List Entity) (cfg : ExportCfg) (eid : Nat) : Bool :=
  match findEntity es eid with
  | none => false
  | some ent =>
    (ent.kind == "File" || ent.kind == "Class" || ent.kind == "Method" ||
      ent.kind == "Function" || ent.kind == "Field") &&
    (match ancestor_file_id es eid with
     | none => false
     | some fid =>
       match fileNameById es fid with
       | none => false
       | some fname => fname ≠ "" && inFocus cfg fname)

/-- The aligned-mode filter block of `export_dv8_full_project` (lines
1540–1588): a conjunction of the negated conditions of its sequential
`continue` statements.  `true` means the edge survives the block. -/
def fullAlignGate (es : List Entity) (srcEnt tgtEnt : Entity)
    (srcId : Nat) (k : String) : Bool :=
  coreKinds.contains k &&
  !((srcEnt.kind == "Method" || srcEnt.kind == "Function") &&
      is_nested_method es srcEnt.id) &&
  !((tgtEnt.kind == "Method" || tgtEnt.kind == "Function") &&
      is_nested_method es tgtEnt.id) &&
  !(k == "Import" && !(srcEnt.kind == "File" && tgtEnt.kind == "File")) &&
  !(k == "Extend" && !(srcEnt.kind == "Class" && tgtEnt.kind == "Class")) &&
  !(k == "Create" && !((srcEnt.kind == "Method" || srcEnt.kind == "Function") &&
      tgtEnt.kind == "Class")) &&
  !(k == "Call" && !((srcEnt.kind == "Method" || srcEnt.kind == "Function") &&
      (tgtEnt.kind == "Method" || tgtEnt.kind == "Function"))) &&
  !(k == "Use" && !((srcEnt.kind == "Method" || srcEnt.kind == "Function") &&
      tgtEnt.kind == "Field")) &&
  !(k == "Use" && (owner_class_entity es srcId).isNone) &&
  !(k == "Call" && tgtEnt.kind == "Method" &&
      (tgtEnt.name == "__init__" || tgtEnt.name == "__new__") &&
      (!(srcEnt.kind == "Method" || srcEnt.kind == "Function") ||
        (srcEnt.kind == "Method" &&
          !(srcEnt.name == "__init__" || srcEnt.name == "__new__")))) &&
  !((srcEnt.kind == "Method" || srcEnt.kind == "Function") &&
      tgtEnt.kind == "Class" && k ≠ "Create") &&
  !(srcEnt.kind == "Field" && tgtEnt.kind == "Method") &&
  !(srcEnt.kind == "Class" && tgtEnt.kind == "Class" && k == "Use")

/-- Part 1 of `export_dv8_full_project`: file-level overview edges derived
from one dependency row (lines 1457–1492). -/
def fileLevelEdge (es : List Entity) (cfg : ExportCfg) (d : Dep) :
    Option Edge3 :=
  match findEntity es d.src, findEntity es d.tgt with
  | some _, some _ =>
    if cfg.alignHandcount && !coreKinds.contains d.kind then none
    else if cfg.alignHandcount && d.kind ≠ "Import" then none
    else match ancestor_file_id es d.src, ancestor_file_id es d.tgt with
      | some sf, some tf =>
        match fileNameById es sf, fileNameById es tf with
        | some sn, some tn =>
          if sn == "" || tn == "" then none
          else if !inFocus cfg sn then none
          else if !cfg.includeSelfEdges && sf == tf then none
          else if inFocus cfg tn then
            some (aligned_file_node sn cfg.dv8Hierarchy,
              aligned_file_node tn cfg.dv8Hierarchy, d.kind)
          else if !cfg.includeExternalTargetFiles then none
          else if cfg.alignHandcount then none
          else some (aligned_file_node sn cfg.dv8Hierarchy,
            "(External File) " ++ tn, d.kind)
        | _, _ => none
      | _, _ => none
  | _, _ => none

/-- The `structured_class_folders` argument of the full-project export:
built only for the structured hierarchy. -/
def fullCf (es : List Entity) (depRows : List Dep) (inF : String → Bool)
    (hier : String) : Option (Nat → Option (List String)) :=
  if hier == "structured" then
    some (classFolderLookup es inF (localBaseOf es depRows inF))
  else none

/-- The `local_base_dotted_by_class_id` argument: built only for the flat
hierarchy. -/
def fullLbd (es : List Entity) (depRows : List Dep) (inF : String → Bool)
    (hier : String) : Option (Nat → Option String) :=
  if hier == "flat" then some (localBaseDottedLookup es depRows inF)
  else none

/-- Part 2 of `export_dv8_full_project`: the entity-level edge derived from
one dependency row (lines 1534–1621).  In aligned mode
`include_external_targets` is forced off before the loop. -/
def entityLevelEdge (es : List Entity)
    (cf : Option (Nat → Option (List String)))
    (lbd : Option (Nat → Option String)) (cfg : ExportCfg) (d : Dep) :
    Option Edge3 :=
  match findEntity es d.src with
  | none => none
  | some srcEnt =>
    if !isFocusEntity es cfg d.src then none
    else match findEntity es d.tgt with
      | none => none
      | some tgtEnt =>
        if cfg.alignHandcount && !fullAlignGate es srcEnt tgtEnt d.src d.kind then
          none
        else
          match alignedNameWith es cfg.dv8Hierarchy cf lbd d.src with
          | none => none
          | some srcName =>
            if srcName == "" then none
            else if isFocusEntity es cfg d.tgt then
              match alignedNameWith es cfg.dv8Hierarchy cf lbd d.tgt with
              | none => none
              | some tgtName =>
                if tgtName == "" then none
                else some (srcName, tgtName, d.kind)
            else if !(cfg.includeExternalTargets && !cfg.alignHandcount) then none
            else some (srcName,
              "(External " ++ tgtEnt.kind ++ ") " ++ display_name es d.tgt,
              d.kind)

/-- The `full_edges` list of `export_dv8_full_project`: file-level edges,
then entity-level edges, deduplicated and sorted in aligned mode. -/
def fullProjectEdges (db : Db) (cfg : ExportCfg) : List Edge3 :=
  let raw :=
    db.deps.filterMap (fileLevelEdge db.entities cfg) ++
    db.deps.filterMap (entityLevelEdge db.entities
      (fullCf db.entities db.deps (inFocus cfg) cfg.dv8Hierarchy)
      (fullLbd db.entities db.deps (inFocus cfg) cfg.dv8Hierarchy) cfg)
  if cfg.alignHandcount then sortedDedup raw else raw

/-- The matrix written by `export_dv8_full_project` (build, then reorder by
the hierarchy's sort key). -/
def fullProjectMatrix (db : Db) (cfg : ExportCfg) : Dv8Matrix :=
  dv8_reorder_dependency_json
    (dv8_build_dependency_json "dependencies (full)" (fullProjectEdges db cfg))
    (dv8_sort_key_for_hierarchy cfg.dv8Hierarchy)

/-! ## export_dv8_file_level -/

/-- The main edge loop of `export_dv8_file_level` (lines 628–666), applied
to one dependency row. -/
def flEdge (es : List Entity) (cfg : ExportCfg) (d : Dep) : Option Edge3 :=
  match findEntity es d.src, findEntity es d.tgt with
  | some _, some _ =>
    match ancestor_file_id es d.src, ancestor_file_id es d.tgt with
    | some sf, some tf =>
      match fileNameById es sf, fileNameById es tf with
      | some sn, some tn =>
        if sn == "" || tn == "" then none
        else if !inFocus cfg sn then none
        else if !cfg.includeSelfEdges && sf == tf then none
        else if inFocus cfg tn then
          if cfg.alignHandcount then
            if d.kind == "Import" then
              some (aligned_file_node sn cfg.dv8Hierarchy,
                aligned_file_node tn cfg.dv8Hierarchy, d.kind)
            else none
          else some (aligned_file_node sn cfg.dv8Hierarchy,
            aligned_file_node tn cfg.dv8Hierarchy, d.kind)
        else if !cfg.includeExternalTargetFiles then none
        else if cfg.alignHandcount then none
        else some (aligned_file_node sn cfg.dv8Hierarchy,
          "(External File) " ++ tn, d.kind)
      | _, _ => none
    | _, _ => none
  | _, _ => none

/-- The aligned fallback loop of `export_dv8_file_level` (lines 672–691),
used when no Import edges were found: derive file coupling from any
core-kind cross-file edge. -/
def flFallbackEdge (es : List Entity) (cfg : ExportCfg) (d : Dep) :
    Option Edge3 :=
  if !coreKinds.contains d.kind then none
  else match findEntity es d.src, findEntity es d.tgt with
    | some _, some _ =>
      match ancestor_file_id es d.src, ancestor_file_id es d.tgt with
      | some sf, some tf =>
        if !cfg.includeSelfEdges && sf == tf then none
        else match fileNameById es sf, fileNameById es tf with
          | some sn, some tn =>
            if sn == "" || tn == "" then none
            else if !inFocus cfg sn || !inFocus cfg tn then none
            else some (aligned_file_node sn cfg.dv8Hierarchy,
              aligned_file_node tn cfg.dv8Hierarchy, d.kind)
          | _, _ => none
      | _, _ => none
    | _, _ => none

/-- The ordered `focus_file_names` list: package files sorted, then root
files sorted. -/
def focusFileNames (es : List Entity) (cfg : ExportCfg) : List String :=
  let all := (es.filter (fun e => e.kind == "File" && inFocus cfg e.name)).map
    (fun e => e.name)
  sortBy strLE (all.filter (fun n => strContainsChar n '/')) ++
    sortBy strLE (all.filter (fun n => !strContainsChar n '/'))

/-- The aligned branch of `export_dv8_file_level` (lines 668–713): all
in-focus files become variables regardless of edges; cells accumulate the
deduplicated edge list, skipping edges whose endpoints are not variables. -/
def export_dv8_file_level_aligned (db : Db) (cfg : ExportCfg) : Dv8Matrix :=
  let edges0 := db.deps.filterMap (flEdge db.entities cfg)
  let edges1 :=
    if edges0 = [] then db.deps.filterMap (flFallbackEdge db.entities cfg)
    else edges0
  let edges := sortedDedup edges1
  let vars := (focusFileNames db.entities cfg).map
    (fun f => aligned_file_node f cfg.dv8Hierarchy)
  let cellAssoc := edges.foldl (fun acc e =>
    match dictIdx vars e.1, dictIdx vars e.2.1 with
    | some s, some t => addCell acc (s, t) e.2.2
    | _, _ => acc) []
  { schemaVersion := "1.0"
    name := "dependencies (file-level)"
    vars := vars
    cells := (sortBy (fun a b => cellKeyLE a.1 b.1) cellAssoc).map
      (fun c => { src := c.1.1, dest := c.1.2, values := c.2 }) }

/-! ## export_dv8_per_file -/

/-- One expansion round of the recursive descendants CTE. -/
def descendantsStep (es : List Entity) (acc : List Nat) : List Nat :=
  (es.filter (fun e =>
    (match e.parentId with
     | some p => acc.contains p
     | none => false) && !acc.contains e.id)).map (fun e => e.id)

/-- Fuel-driven fixpoint of the descendants CTE (`_descendants`).  Each
round adds at least one new entity id, so fuel `es.length` reaches the
fixpoint; on a cyclic parent chain SQLite's `UNION ALL` CTE would not
terminate either way. -/
def descendantsAux (es : List Entity) : Nat → List Nat → List Nat
  | 0, acc => acc
  | fuel + 1, acc =>
    let next := descendantsStep es acc
    if next = [] then acc else descendantsAux es fuel (acc ++ next)

/-- Embedding of `_descendants`: the root (when it exists) and all entities
reachable from it via `parent_id`. -/
def descendants (es : List Entity) (rootId : Nat) : List Nat :=
  descendantsAux es es.length
    ((es.filter (fun e => e.id == rootId)).map (fun e => e.id))

/-- The aligned-mode filter block of `export_dv8_per_file` (lines
1783–1809), as the conjunction of its `continue` conditions negated. -/
def perFileGate (srcEnt tgtEnt : Entity) (k : String) : Bool :=
  coreKinds.contains k &&
  !(k == "Import" && !(srcEnt.kind == "File" && tgtEnt.kind == "File")) &&
  !(k == "Extend" && !(srcEnt.kind == "Class" && tgtEnt.kind == "Class")) &&
  !(k == "Create" && !(srcEnt.kind == "Method" && tgtEnt.kind == "Class")) &&
  !(k == "Call" && !(srcEnt.kind == "Method" && tgtEnt.kind == "Method")) &&
  !(k == "Use" && !(srcEnt.kind == "Method" && tgtEnt.kind == "Field")) &&
  !(k == "Call" && tgtEnt.kind == "Method" &&
      (tgtEnt.name == "__init__" || tgtEnt.name == "__new__") &&
      !(srcEnt.name == "__init__" || srcEnt.name == "__new__")) &&
  !(srcEnt.kind == "Method" && tgtEnt.kind == "Class" && k ≠ "Create") &&
  !(srcEnt.kind == "Field" && tgtEnt.kind == "Method") &&
  !(srcEnt.kind == "Class" && tgtEnt.kind == "Class" && k == "Use")

/-- Configuration of `export_dv8_per_file` relevant to one file's matrix. -/
structure PerFileCfg where
  includeExternalTargets : Bool
  includeIncomingEdges : Bool
  alignHandcount : Bool
  dv8Hierarchy : String
deriving Repr, DecidableEq

/-- The per-file edge derived from one (file-scoped) dependency row (lines
1775–1849). -/
def perFileEdge (es : List Entity) (ids : List Nat)
    (cf : Option (Nat → Option (List String)))
    (lbd : Option (Nat → Option String)) (pcfg : PerFileCfg) (d : Dep) :
    Option Edge3 :=
  match findEntity es d.src, findEntity es d.tgt with
  | some srcEnt, some tgtEnt =>
    if pcfg.alignHandcount && !perFileGate srcEnt tgtEnt d.kind then none
    else
      let srcInFile := ids.contains d.src
      let tgtInFile := ids.contains d.tgt
      let srcNameO : Option String :=
        if pcfg.alignHandcount then
          if srcInFile then
            alignedNameWith es pcfg.dv8Hierarchy cf lbd d.src
          else if !pcfg.includeExternalTargets then none
          else some ("(External " ++ srcEnt.kind ++ ") " ++ display_name es d.src)
        else some (display_name es d.src)
      let tgtNameO : Option String :=
        if tgtInFile then
          if pcfg.alignHandcount then
            alignedNameWith es pcfg.dv8Hierarchy cf lbd d.tgt
          else some (display_name es d.tgt)
        else if !pcfg.includeExternalTargets then none
        else some ("(External " ++ tgtEnt.kind ++ ") " ++ display_name es d.tgt)
      match srcNameO, tgtNameO with
      | some sn, some tn =>
        if sn == "" || tn == "" then none else some (sn, tn, d.kind)
      | _, _ => none
  | _, _ => none

/-- The edge list built by one iteration (one File entity) of
`export_dv8_per_file`: dependency rows scoped to the file, the per-file
class-folder maps (built with `in_focus_file = (· = fileName)` over the
scoped rows), the edge loop, and aligned deduplication. -/
def perFileEdges (db : Db) (pcfg : PerFileCfg) (fileId : Nat)
    (fileName : String) : List Edge3 :=
  let ids := descendants db.entities fileId
  let scopedDeps := db.deps.filter (fun d =>
    ids.contains d.src || (pcfg.includeIncomingEdges && ids.contains d.tgt))
  let inF : String → Bool := fun f => f == fileName
  let cf :=
    if pcfg.alignHandcount && pcfg.dv8Hierarchy == "structured" then
      some (classFolderLookup db.entities inF
        (localBaseOf db.entities scopedDeps inF))
    else none
  let lbd :=
    if pcfg.alignHandcount && pcfg.dv8Hierarchy == "flat" then
      some (localBaseDottedLookup db.entities scopedDeps inF)
    else none
  let edges := scopedDeps.filterMap (perFileEdge db.entities ids cf lbd pcfg)
  if pcfg.alignHandcount then sortedDedup edges else edges

/-! ## Spec-side condition for Use edges

The alignment table of the specification states that a `Use` edge survives
"only when the field's owner class is an ancestor of the source".  The
following definitions follow the spec's words (not the code) so the code's
behaviour can be compared against them. -/

/-- Parent-chain ancestor ids of an entity (fuel-bounded like the walks
above). -/
def ancestorIdsAux (es : List Entity) : Nat → Entity → List Nat
  | 0, _ => []
  | fuel + 1, cur =>
    match cur.parentId with
    | none => []
    | some pid =>
      match findEntity es pid with
      | none => [pid]
      | some p => pid :: ancestorIdsAux es fuel p

/-- All ancestor ids of `eid`. -/
def ancestorIds (es : List Entity) (eid : Nat) : List Nat :=
  match findEntity es eid with
  | none => []
  | some e => ancestorIdsAux es (es.length + 1) e

/-- Spec condition, from the spec's words: "the field's owner class is an
ancestor of the source (i.e., self/this-field access)". -/
def specFieldOwnerIsAncestor (es : List Entity) (srcId fieldId : Nat) : Bool :=
  match findEntity es fieldId with
  | none => false
  | some f =>
    match f.parentId with
    | none => false
    | some ownerId => (ancestorIds es srcId).contains ownerId

/-! ## Concrete example fact bases -/

/-- Canonical aligned structured configuration (`--filter-architecture`,
default hierarchy, no focus prefix). -/
def cfgAlignedStructured : ExportCfg :=
  { focusPrefix := none, includeRootPy := true, includeExternalTargets := false,
    includeExternalTargetFiles := false, includeSelfEdges := false,
    alignHandcount := true, dv8Hierarchy := "structured" }

/-- Canonical aligned structured per-file configuration. -/
def perFileAligned : PerFileCfg :=
  { includeExternalTargets := false, includeIncomingEdges := false,
    alignHandcount := true, dv8Hierarchy := "structured" }

/-- Entities for the cross-object Use example: method `A.m` uses field
`B.x`, where `B` is unrelated to `A`. -/
def crossUseEntities : List Entity :=
  [ { id := 1, parentId := none, kind := "File", name := "pkg/f.py",
      contentId := 1, startRow := 0, endRow := 100 },
    { id := 2, parentId := some 1, kind := "Class", name := "A",
      contentId := 1, startRow := 1, endRow := 10 },
    { id := 3, parentId := some 2, kind := "Method", name := "m",
      contentId := 1, startRow := 2, endRow := 5 },
    { id := 4, parentId := some 1, kind := "Class", name := "B",
      contentId := 1, startRow := 11, endRow := 20 },
    { id := 5, parentId := some 4, kind := "Field", name := "x",
      contentId := 1, startRow := 12, endRow := 12 } ]

/-- Fact base with a single cross-object `Use` dependency. -/
def crossUseDb : Db :=
  { entities := crossUseEntities
    deps := [ { src := 3, tgt := 5, kind := "Use", row := 4, commitId := none } ]
    contents := [] }

/-- Entities for the constructor-call example: module-level function
`helper` calls `A.__init__`. -/
def ctorCallEntities : List Entity :=
  [ { id := 1, parentId := none, kind := "File", name := "pkg/f.py",
      contentId := 1, startRow := 0, endRow := 100 },
    { id := 2, parentId := some 1, kind := "Class", name := "A",
      contentId := 1, startRow := 1, endRow := 10 },
    { id := 3, parentId := some 2, kind := "Method", name := "__init__",
      contentId := 1, startRow := 2, endRow := 5 },
    { id := 4, parentId := some 1, kind := "Function", name := "helper",
      contentId := 1, startRow := 12, endRow := 15 } ]

/-- Fact base with a single `Call` edge from a Function to a constructor. -/
def ctorCallDb : Db :=
  { entities := ctorCallEntities
    deps := [ { src := 4, tgt := 3, kind := "Call", row := 13, commitId := none } ]
    contents := [] }

/-- Fact base with an in-focus class that has no dependencies at all. -/
def lonelyClassDb : Db :=
  { entities :=
      [ { id := 1, parentId := none, kind := "File", name := "pkg/f.py",
          contentId := 1, startRow := 0, endRow := 100 },
        { id := 2, parentId := some 1, kind := "Class", name := "Lonely",
          contentId := 1, startRow := 1, endRow := 10 } ]
    deps := []
    contents := [] }

/-- Entities exercising all leaf kinds of the naming schemes: a file, a
root class `A` with inner class `B`, a subclass `C` of `A`, a method, a
constructor, a field, a module function, and a method of `C`. -/
def repNamingEntities : List Entity :=
  [ { id := 1, parentId := none, kind := "File", name := "pkg/f.py",
      contentId := 1, startRow := 0, endRow := 100 },
    { id := 2, parentId := some 1, kind := "Class", name := "A",
      contentId := 1, startRow := 1, endRow := 40 },
    { id := 3, parentId := some 2, kind := "Class", name := "B",
      contentId := 1, startRow := 2, endRow := 10 },
    { id := 4, parentId := some 1, kind := "Class", name := "C",
      contentId := 1, startRow := 41, endRow := 60 },
    { id := 5, parentId := some 2, kind := "Method", name := "m",
      contentId := 1, startRow := 12, endRow := 15 },
    { id := 6, parentId := some 2, kind := "Method", name := "__init__",
      contentId := 1, startRow := 16, endRow := 18 },
    { id := 7, parentId := some 2, kind := "Field", name := "x",
      contentId := 1, startRow := 17, endRow := 17 },
    { id := 8, parentId := some 1, kind := "Function", name := "g",
      contentId := 1, startRow := 61, endRow := 70 },
    { id := 9, parentId := some 4, kind := "Method", name := "h",
      contentId := 1, startRow := 42, endRow := 44 } ]

/-- Dependency rows for the representative naming fact base (`C` extends
`A` locally). -/
def repNamingDeps : List Dep :=
  [ { src := 4, tgt := 2, kind := "Extend", row := 41, commitId := none } ]

/-- Entities with a duplicate-tagged method: two distinct Method entities
both named `m` with the same parent class, plus a field both of them use. -/
def dupMethodEntities : List Entity :=
  [ { id := 1, parentId := none, kind := "File", name := "f.py",
      contentId := 1, startRow := 0, endRow := 100 },
    { id := 2, parentId := some 1, kind := "Class", name := "A",
      contentId := 1, startRow := 1, endRow := 40 },
    { id := 3, parentId := some 2, kind := "Method", name := "m",
      contentId := 1, startRow := 2, endRow := 5 },
    { id := 4, parentId := some 2, kind := "Method", name := "m",
      contentId := 1, startRow := 2, endRow := 5 },
    { id := 5, parentId := some 2, kind := "Field", name := "z",
      contentId := 1, startRow := 6, endRow := 6 } ]

/-- Fact base in which both duplicate-tagged methods use the field. -/
def dupMethodDb : Db :=
  { entities := dupMethodEntities
    deps :=
      [ { src := 3, tgt := 5, kind := "Use", row := 3, commitId := none },
        { src := 4, tgt := 5, kind := "Use", row := 3, commitId := none } ]
    contents := [] }

/-- Entities with a genuine nested helper (`inner` inside method `outer`)
and a duplicate-tagged pair (`with_mask` parented by a same-named
`with_mask` whose parent is the class). -/
def nestedHelperEntities : List Entity :=
  [ { id := 1, parentId := none, kind := "File", name := "f.py",
      contentId := 1, startRow := 0, endRow := 100 },
    { id := 2, parentId := some 1, kind := "Class", name := "A",
      contentId := 1, startRow := 1, endRow := 40 },
    { id := 3, parentId := some 2, kind := "Method", name := "outer",
      contentId := 1, startRow := 2, endRow := 10 },
    { id := 4, parentId := some 3, kind := "Function", name := "inner",
      contentId := 1, startRow := 3, endRow := 5 },
    { id := 5, parentId := some 2, kind := "Method", name := "with_mask",
      contentId := 1, startRow := 11, endRow := 20 },
    { id := 6, parentId := some 5, kind := "Method", name := "with_mask",
      contentId := 1, startRow := 11, endRow := 20 },
    { id := 7, parentId := some 2, kind := "Field", name := "fld",
      contentId := 1, startRow := 21, endRow := 21 } ]

/-- Fact base in which the nested helper and the duplicate-tagged method
each use the class field. -/
def nestedHelperDb : Db :=
  { entities := nestedHelperEntities
    deps :=
      [ { src := 4, tgt := 7, kind := "Use", row := 4, commitId := none },
        { src := 6, tgt := 7, kind := "Use", row := 12, commitId := none } ]
    contents := [] }

/-- Entities for the boundary-detection example: single-line method `m`
(rows 10–10) with sibling method `n`. -/
def boundaryEntities : List Entity :=
  [ { id := 1, parentId := none, kind := "File", name := "f.py",
      contentId := 1, startRow := 0, endRow := 100 },
    { id := 2, parentId := some 1, kind := "Class", name := "A",
      contentId := 1, startRow := 1, endRow := 40 },
    { id := 3, parentId := some 2, kind := "Method", name := "m",
      contentId := 1, startRow := 10, endRow := 10 },
    { id := 4, parentId := some 2, kind := "Method", name := "n",
      contentId := 1, startRow := 12, endRow := 14 } ]

/-! # Theorems -/

theorem sibling_method_iff (es : List Entity) (srcId tgtId : Nat) (row : Int)
    (srcEnt tgtEnt : Entity) (hs : findEntity es srcId = some srcEnt)
    (ht : findEntity es tgtId = some tgtEnt) :
    is_false_positive_sibling_method es srcId tgtId row = true ↔
      (srcEnt.kind = "Method" ∧ tgtEnt.kind = "Method" ∧
        srcEnt.parentId = tgtEnt.parentId ∧
        (row = srcEnt.startRow ∨ row = srcEnt.endRow)) := by
  unfold is_false_positive_sibling_method
  rw [hs, ht]
  by_cases h1 : srcEnt.kind = "Method"
  · by_cases h2 : tgtEnt.kind = "Method"
    · by_cases h3 : srcEnt.parentId = tgtEnt.parentId
      · by_cases h4 : srcEnt.endRow - srcEnt.startRow + 1 ≤ 3
        · simp [h1, h2, h3, h4]
        · simp [h1, h2, h3, h4]
          tauto
      · simp [h1, h2, h3]
    · simp [h1, h2]
  · simp [h1]

theorem classify_sibling_iff (es : List Entity) (srcId tgtId : Nat)
    (row : Int) :
    classifyDep es srcId tgtId row = some "sibling_method" ↔
      is_false_positive_sibling_method es srcId tgtId row = true := by
  unfold classifyDep
  by_cases h : is_false_positive_sibling_method es srcId tgtId row
  · simp [h]
  · simp only [h, if_false, Bool.false_eq_true]
    constructor
    · intro hEq
      split_ifs at hEq <;> simp_all
    · intro hEq
      exact absurd hEq (by simp [h])

/-- C5: the false-positive classifier tags an edge `sibling_method` exactly
when source and target are both Method-kind entities with the same parent
and the edge row equals the source's start row or end row (both boundary
rows are suspect regardless of the definition's size); in particular, for a
Method spanning rows 10–10 with a sibling-Method target, an edge at row 10
is flagged while the same edge at row 12 is not. -/
theorem c5_sibling_method_boundary :
    (∀ (es : List Entity) (srcId tgtId : Nat) (row : Int)
        (srcEnt tgtEnt : Entity),
      findEntity es srcId = some srcEnt → findEntity es tgtId = some tgtEnt →
      (classifyDep es srcId tgtId row = some "sibling_method" ↔
        (srcEnt.kind = "Method" ∧ tgtEnt.kind = "Method" ∧
          srcEnt.parentId = tgtEnt.parentId ∧
          (row = srcEnt.startRow ∨ row = srcEnt.endRow)))) ∧
    classifyDep boundaryEntities 3 4 10 = some "sibling_method" ∧
    classifyDep boundaryEntities 3 4 12 = none := by
  refine ⟨?_, by decide, by decide⟩
  intro es s t row se te hs ht
  rw [classify_sibling_iff]
  exact sibling_method_iff es s t row se te hs ht

/-- Witness for C5 at the concrete boundary example. -/
theorem c5_sibling_method_boundary_witness :
    classifyDep boundaryEntities 3 4 10 = some "sibling_method" :=
  (c5_sibling_method_boundary.1 boundaryEntities 3 4 10
    { id := 3, parentId := some 2, kind := "Method", name := "m",
      contentId := 1, startRow := 10, endRow := 10 }
    { id := 4, parentId := some 2, kind := "Method", name := "n",
      contentId := 1, startRow := 12, endRow := 14 }
    (by decide) (by decide)).mpr (by decide)

/-- C8: the classifier never modifies the input fact base — the first
component of `filter_dependencies` is the untouched input — and on the
working copy the entities and contents relations are unchanged while the
deps relation only loses rows (exactly the rows the detector cascade
flags). -/
theorem c8_filter_preserves_input (db : Db) :
    (filter_dependencies db).1 = db ∧
    (filter_dependencies db).2.entities = db.entities ∧
    (filter_dependencies db).2.contents = db.contents ∧
    (filter_dependencies db).2.deps =
      db.deps.filter
        (fun d => (classifyDep db.entities d.src d.tgt d.row).isNone) ∧
    (filter_dependencies db).2.deps.Sublist db.deps := by
  refine ⟨rfl, rfl, rfl, ?_, List.filter_sublist _⟩
  show cleanedDeps db = _
  unfold cleanedDeps
  apply List.filter_congr
  intro d hd
  by_cases hc : (classifyDep db.entities d.src d.tgt d.row).isSome
  · have hdfp : d ∈ falsePositives db :=
      List.mem_filter.mpr ⟨hd, by simpa using hc⟩
    have hany : (falsePositives db).any (fun fp =>
        fp.src == d.src && fp.tgt == d.tgt && fp.kind == d.kind &&
          fp.row == d.row) = true :=
      List.any_eq_true.mpr ⟨d, hdfp, by simp⟩
    rw [hany]
    cases hval : classifyDep db.entities d.src d.tgt d.row with
    | none => rw [hval] at hc; simp at hc
    | some v => simp
  · have hnone : classifyDep db.entities d.src d.tgt d.row = none :=
      Option.not_isSome_iff_eq_none.mp hc
    have hany : (falsePositives db).any (fun fp =>
        fp.src == d.src && fp.tgt == d.tgt && fp.kind == d.kind &&
          fp.row == d.row) = false := by
      rw [List.any_eq_false]
      intro fp hfp
      have hsome := (List.mem_filter.mp hfp).2
      intro hmatch
      have h1 : fp.src = d.src := by
        have := hmatch
        simp only [Bool.and_eq_true, beq_iff_eq] at this
        exact this.1.1.1
      have h2 : fp.tgt = d.tgt := by
        simp only [Bool.and_eq_true, beq_iff_eq] at hmatch
        exact hmatch.1.1.2
      have h4 : fp.row = d.row := by
        simp only [Bool.and_eq_true, beq_iff_eq] at hmatch
        exact hmatch.2
      rw [h1, h2, h4, hnone] at hsome
      simp at hsome
    rw [hany, hnone]
    simp

/-! ### Lemmas about `varIdx` and `ensureVar` -/

theorem varIdx_append (v : String) :
    ∀ (l l' : List String) (i : Nat), varIdx l v = some i →
      varIdx (l ++ l') v = some i := by
  intro l l'
  induction l with
  | nil => intro i h; simp [varIdx] at h
  | cons u rest ih =>
    intro i h
    simp only [varIdx, List.cons_append] at h ⊢
    cases hu : (u == v) with
    | true => simpa [hu] using h
    | false =>
      simp only [hu, Bool.false_eq_true, if_false] at h ⊢
      obtain ⟨j, hj, hij⟩ := Option.map_eq_some'.mp h
      show Option.map (fun x => x + 1) (varIdx (rest ++ l') v) = some i
      rw [ih j hj]
      simp [hij]

theorem varIdx_none_iff (v : String) :
    ∀ (l : List String), varIdx l v = none ↔ v ∉ l := by
  intro l
  induction l with
  | nil => simp [varIdx]
  | cons u rest ih =>
    simp only [varIdx, List.mem_cons]
    cases hu : (u == v) with
    | true =>
      simp only [hu, if_true]
      constructor
      · intro h; exact absurd h (by simp)
      · intro h; exact absurd (Or.inl (beq_iff_eq.mp hu).symm) h
    | false =>
      simp only [hu, Bool.false_eq_true, if_false, Option.map_eq_none']
      rw [ih]
      constructor
      · intro h hmem
        rcases hmem with hmem | hmem
        · rw [hmem] at hu; simp at hu
        · exact h hmem
      · intro h hmem; exact h (Or.inr hmem)

theorem varIdx_append_self (l : List String) (v : String)
    (h : varIdx l v = none) : varIdx (l ++ [v]) v = some l.length := by
  induction l with
  | nil => simp [varIdx]
  | cons u rest ih =>
    simp only [varIdx, List.cons_append] at h ⊢
    cases hu : (u == v) with
    | true => rw [hu] at h; simp at h
    | false =>
      rw [hu] at h
      simp only [Bool.false_eq_true, if_false, Option.map_eq_none'] at h
      simp only [hu, Bool.false_eq_true, if_false]
      show Option.map (fun x => x + 1) (varIdx (rest ++ [v]) v) =
        some (u :: rest).length
      rw [ih h]
      simp [List.length_cons]

theorem varIdx_get (v : String) :
    ∀ (l : List String) (i : Nat), varIdx l v = some i →
      ∃ h : i < l.length, l.get ⟨i, h⟩ = v := by
  intro l
  induction l with
  | nil => intro i h; simp [varIdx] at h
  | cons u rest ih =>
    intro i h
    simp only [varIdx] at h
    cases hu : (u == v) with
    | true =>
      rw [hu] at h
      simp only [if_true] at h
      obtain rfl : (0 : Nat) = i := by simpa using h
      exact ⟨by simp, beq_iff_eq.mp hu⟩
    | false =>
      rw [hu] at h
      simp only [Bool.false_eq_true, if_false] at h
      obtain ⟨j, hj, hij⟩ := Option.map_eq_some'.mp h
      obtain ⟨hlt, hget⟩ := ih j hj
      subst hij
      exact ⟨by simpa using Nat.succ_lt_succ hlt, by simpa using hget⟩

theorem varIdx_isSome_of_mem {l : List String} {v : String} (h : v ∈ l) :
    (varIdx l v).isSome := by
  cases hv : varIdx l v with
  | none => exact absurd h ((varIdx_none_iff v l).mp hv)
  | some i => simp

theorem ensureVar_ext (vars : List String) (v : String) :
    ∃ ext, (ensureVar vars v).1 = vars ++ ext := by
  unfold ensureVar
  cases h : varIdx vars v with
  | none => exact ⟨[v], rfl⟩
  | some i => exact ⟨[], by simp⟩

theorem ensureVar_idx (vars : List String) (v : String) :
    varIdx (ensureVar vars v).1 v = some (ensureVar vars v).2 := by
  unfold ensureVar
  cases h : varIdx vars v with
  | none => simpa using varIdx_append_self vars v h
  | some i => simpa using h

theorem ensureVar_preserve (vars : List String) (v u : String) (i : Nat)
    (h : varIdx vars u = some i) : varIdx (ensureVar vars v).1 u = some i := by
  obtain ⟨ext, hx⟩ := ensureVar_ext vars v
  rw [hx]
  exact varIdx_append u vars ext i h

theorem ensureVar_nodup (vars : List String) (v : String) (h : vars.Nodup) :
    (ensureVar vars v).1.Nodup := by
  unfold ensureVar
  cases hv : varIdx vars v with
  | some i => exact h
  | none =>
    have hnv : v ∉ vars := (varIdx_none_iff v vars).mp hv
    simp [List.nodup_append, h, hnv]

theorem ensureVar_mem (vars : List String) (v u : String) (h : u ∈ vars) :
    u ∈ (ensureVar vars v).1 := by
  obtain ⟨ext, hx⟩ := ensureVar_ext vars v
  rw [hx]
  exact List.mem_append_left ext h

theorem ensureVar_mem_self (vars : List String) (v : String) :
    v ∈ (ensureVar vars v).1 := by
  have h := ensureVar_idx vars v
  obtain ⟨hlt, hget⟩ := varIdx_get v _ _ h
  have hmem := List.get_mem (ensureVar vars v).1 (ensureVar vars v).2 hlt
  rw [hget] at hmem
  exact hmem

/-! ### Lemmas about `bumpKind`, `addCell`, `cellVal` -/

theorem find?_append_none {α : Type} {p : α → Bool} :
    ∀ (l₁ l₂ : List α), l₁.find? p = none → (l₁ ++ l₂).find? p = l₂.find? p := by
  intro l₁ l₂ h
  induction l₁ with
  | nil => simp
  | cons a l ih =>
    simp only [List.find?] at h
    cases ha : p a with
    | true => rw [ha] at h; simp at h
    | false =>
      rw [ha] at h
      simp only [List.cons_append, List.find?, ha]
      exact ih h

theorem find?_append_some {α : Type} {p : α → Bool} :
    ∀ (l₁ l₂ : List α) (x : α), l₁.find? p = some x →
      (l₁ ++ l₂).find? p = some x := by
  intro l₁ l₂ x h
  induction l₁ with
  | nil => simp [List.find?] at h
  | cons a l ih =>
    simp only [List.find?] at h
    cases ha : p a with
    | true =>
      rw [ha] at h
      simp only [List.cons_append, List.find?, ha]
      exact h
    | false =>
      rw [ha] at h
      simp only [List.cons_append, List.find?, ha]
      exact ih h

theorem valLookup_map_bump (k : String) :
    ∀ (vals : List (String × Nat)), vals.any (fun p => p.1 == k) = true →
      valLookup (vals.map (fun p => if p.1 == k then (p.1, p.2 + 1) else p)) k
        = valLookup vals k + 1 := by
  intro vals h
  induction vals with
  | nil => simp at h
  | cons p ps ih =>
    cases hp : (p.1 == k) with
    | true => simp [valLookup, List.find?, hp]
    | false =>
      have h' : ps.any (fun p => p.1 == k) = true := by
        simpa [List.any_cons, hp] using h
      simp only [List.map_cons, hp, Bool.false_eq_true, if_false]
      simp only [valLookup, List.find?, hp] at ih ⊢
      exact ih h'

theorem valLookup_append_absent (k : String) :
    ∀ (vals : List (String × Nat)), vals.any (fun p => p.1 == k) = false →
      valLookup (vals ++ [(k, 1)]) k = valLookup vals k + 1 := by
  intro vals h
  induction vals with
  | nil => simp [valLookup, List.find?]
  | cons p ps ih =>
    have hp : (p.1 == k) = false := by
      by_contra hc
      have : (p.1 == k) = true := by
        cases hpk : (p.1 == k) with
        | true => rfl
        | false => exact absurd hpk hc
      simp [List.any_cons, this] at h
    have h' : ps.any (fun p => p.1 == k) = false := by
      simpa [List.any_cons, hp] using h
    simp only [List.cons_append, valLookup, List.find?, hp] at ih ⊢
    exact ih h'

theorem valLookup_bump_self (vals : List (String × Nat)) (k : String) :
    valLookup (bumpKind vals k) k = valLookup vals k + 1 := by
  unfold bumpKind
  cases h : vals.any (fun p => p.1 == k) with
  | true => simpa [h] using valLookup_map_bump k vals h
  | false => simpa [h] using valLookup_append_absent k vals h

theorem valLookup_map_bump_ne (k k' : String) (hne : k' ≠ k) :
    ∀ (vals : List (String × Nat)),
      valLookup (vals.map (fun p => if p.1 == k then (p.1, p.2 + 1) else p)) k'
        = valLookup vals k' := by
  intro vals
  induction vals with
  | nil => simp
  | cons p ps ih =>
    cases hp : (p.1 == k') with
    | true =>
      have hpk : (p.1 == k) = false := by
        have hpv : p.1 = k' := beq_iff_eq.mp hp
        rw [hpv]
        exact beq_eq_false_iff_ne.mpr hne
      simp [valLookup, List.find?, hp, hpk]
    | false =>
      simp only [List.map_cons]
      by_cases hpk : (p.1 == k) = true
      · simp only [hpk, if_true]
        simp only [valLookup, List.find?, hp] at ih ⊢
        exact ih
      · simp only [Bool.not_eq_true] at hpk
        simp only [hpk, Bool.false_eq_true, if_false]
        simp only [valLookup, List.find?, hp] at ih ⊢
        exact ih

theorem valLookup_append_ne (k k' : String) (hne : k' ≠ k) :
    ∀ (vals : List (String × Nat)),
      valLookup (vals ++ [(k, 1)]) k' = valLookup vals k' := by
  intro vals
  induction vals with
  | nil => simp [valLookup, List.find?, beq_eq_false_iff_ne.mpr (fun hx => hne hx.symm)]
  | cons p ps ih =>
    cases hp : (p.1 == k') with
    | true => simp [valLookup, List.find?, hp]
    | false =>
      simp only [List.cons_append, valLookup, List.find?, hp] at ih ⊢
      exact ih

theorem valLookup_bump_ne (vals : List (String × Nat)) (k k' : String)
    (hne : k' ≠ k) : valLookup (bumpKind vals k) k' = valLookup vals k' := by
  unfold bumpKind
  cases h : vals.any (fun p => p.1 == k) with
  | true => simpa [h] using valLookup_map_bump_ne k k' hne vals
  | false => simpa [h] using valLookup_append_ne k k' hne vals

theorem find?_map_bump (key : Nat × Nat) (k : String) :
    ∀ (cells : List ((Nat × Nat) × List (String × Nat))),
      (cells.map (fun c => if c.1 == key then (c.1, bumpKind c.2 k) else c)).find?
          (fun c => c.1 == key)
        = (cells.find? (fun c => c.1 == key)).map
            (fun c => (c.1, bumpKind c.2 k)) := by
  intro cells
  induction cells with
  | nil => simp
  | cons c cs ih =>
    cases hc : (c.1 == key) with
    | true => simp [List.find?, hc]
    | false => simpa [List.find?, hc] using ih

theorem find?_map_bump_other (key : Nat × Nat) (k : String) (key' : Nat × Nat)
    (hne : key' ≠ key) :
    ∀ (cells : List ((Nat × Nat) × List (String × Nat))),
      (cells.map (fun c => if c.1 == key then (c.1, bumpKind c.2 k) else c)).find?
          (fun c => c.1 == key')
        = cells.find? (fun c => c.1 == key') := by
  intro cells
  induction cells with
  | nil => simp
  | cons c cs ih =>
    cases hc : (c.1 == key') with
    | true =>
      have hck : (c.1 == key) = false := by
        have : c.1 = key' := beq_iff_eq.mp hc
        rw [this]
        exact beq_eq_false_iff_ne.mpr hne
      simp [List.find?, hc, hck]
    | false =>
      by_cases hck : (c.1 == key) = true
      · simp only [List.map_cons, hck, if_true, List.find?, hc]
        exact ih
      · simp only [Bool.not_eq_true] at hck
        simp only [List.map_cons, hck, Bool.false_eq_true, if_false,
          List.find?, hc]
        exact ih

theorem find?_isSome_of_any {α : Type} {p : α → Bool} {l : List α}
    (h : l.any p = true) : (l.find? p).isSome := by
  obtain ⟨x, hx, hpx⟩ := List.any_eq_true.mp h
  cases hf : l.find? p with
  | none =>
    rw [List.find?_eq_none] at hf
    exact absurd hpx (by simpa using hf x hx)
  | some y => simp

theorem find?_none_of_not_any {α : Type} {p : α → Bool} {l : List α}
    (h : l.any p = false) : l.find? p = none := by
  rw [List.find?_eq_none]
  intro x hx hpx
  have : l.any p = true := List.any_eq_true.mpr ⟨x, hx, hpx⟩
  rw [h] at this
  exact absurd this (by simp)

theorem cellVal_addCell_self
    (cells : List ((Nat × Nat) × List (String × Nat))) (key : Nat × Nat)
    (k : String) :
    cellVal (addCell cells key k) key k = cellVal cells key k + 1 := by
  unfold addCell
  cases hA : cells.any (fun c => c.1 == key) with
  | true =>
    simp only [hA, if_true]
    unfold cellVal
    rw [find?_map_bump]
    cases hf : cells.find? (fun c => c.1 == key) with
    | none =>
      have := find?_isSome_of_any hA
      rw [hf] at this
      simp at this
    | some c => simpa using valLookup_bump_self c.2 k
  | false =>
    simp only [hA, Bool.false_eq_true, if_false]
    have hf : cells.find? (fun c => c.1 == key) = none :=
      find?_none_of_not_any hA
    unfold cellVal
    rw [find?_append_none _ _ hf, hf]
    simp [List.find?, bumpKind, valLookup]

theorem cellVal_addCell_other
    (cells : List ((Nat × Nat) × List (String × Nat))) (key : Nat × Nat)
    (k : String) (key' : Nat × Nat) (k' : String)
    (hne : ¬(key' = key ∧ k' = k)) :
    cellVal (addCell cells key k) key' k' = cellVal cells key' k' := by
  unfold addCell
  by_cases hkey : key' = key
  · subst hkey
    have hk : k' ≠ k := fun hx => hne ⟨rfl, hx⟩
    cases hA : cells.any (fun c => c.1 == key') with
    | true =>
      simp only [hA, if_true]
      unfold cellVal
      rw [find?_map_bump]
      cases hf : cells.find? (fun c => c.1 == key') with
      | none => simp
      | some c => simpa using valLookup_bump_ne c.2 k k' hk
    | false =>
      simp only [hA, Bool.false_eq_true, if_false]
      have hf : cells.find? (fun c => c.1 == key') = none :=
        find?_none_of_not_any hA
      unfold cellVal
      rw [find?_append_none _ _ hf, hf]
      have hkk : (k == k') = false := beq_eq_false_iff_ne.mpr (Ne.symm hk)
      simp [List.find?, bumpKind, valLookup, hkk]
  · cases hA : cells.any (fun c => c.1 == key) with
    | true =>
      simp only [hA, if_true]
      unfold cellVal
      rw [find?_map_bump_other key k key' hkey]
    | false =>
      simp only [hA, Bool.false_eq_true, if_false]
      unfold cellVal
      cases hf : cells.find? (fun c => c.1 == key') with
      | some c => rw [find?_append_some _ _ _ hf]
      | none =>
        rw [find?_append_none _ _ hf]
        have hkk : (key == key') = false := by
          exact beq_eq_false_iff_ne.mpr (Ne.symm hkey)
        simp [List.find?, hkk]

theorem addCell_keys (cells : List ((Nat × Nat) × List (String × Nat)))
    (key : Nat × Nat) (k : String) :
    (addCell cells key k).map (fun c => c.1)
      = if cells.any (fun c => c.1 == key) then cells.map (fun c => c.1)
        else cells.map (fun c => c.1) ++ [key] := by
  unfold addCell
  cases hA : cells.any (fun c => c.1 == key) with
  | true =>
    simp only [hA, if_true, List.map_map]
    congr 1
    funext c
    by_cases hcp : c.1 = key <;> simp [hcp]
  | false => simp [hA]

theorem any_key_iff {β γ : Type} [BEq β] [LawfulBEq β]
    (l : List (β × γ)) (key : β) :
    l.any (fun c => c.1 == key) = true ↔ key ∈ l.map (fun c => c.1) := by
  rw [List.any_eq_true]
  constructor
  · rintro ⟨c, hc, hcc⟩
    exact List.mem_map.mpr ⟨c, hc, beq_iff_eq.mp hcc⟩
  · intro h
    obtain ⟨c, hc, hcc⟩ := List.mem_map.mp h
    exact ⟨c, hc, beq_iff_eq.mpr hcc⟩

theorem addCell_keys_nodup (cells : List ((Nat × Nat) × List (String × Nat)))
    (key : Nat × Nat) (k : String)
    (h : (cells.map (fun c => c.1)).Nodup) :
    ((addCell cells key k).map (fun c => c.1)).Nodup := by
  rw [addCell_keys]
  cases hA : cells.any (fun c => c.1 == key) with
  | true => simpa [hA] using h
  | false =>
    have hk : key ∉ cells.map (fun c => c.1) := by
      intro hmem
      have := (any_key_iff cells key).mpr hmem
      rw [hA] at this
      exact absurd this (by simp)
    simp [hA, List.nodup_append, h, hk]

theorem bumpKind_keys (vals : List (String × Nat)) (k : String) :
    (bumpKind vals k).map (fun p => p.1)
      = if vals.any (fun p => p.1 == k) then vals.map (fun p => p.1)
        else vals.map (fun p => p.1) ++ [k] := by
  unfold bumpKind
  cases hA : vals.any (fun p => p.1 == k) with
  | true =>
    simp only [hA, if_true, List.map_map]
    congr 1
    funext p
    by_cases hpp : p.1 = k <;> simp [hpp]
  | false => simp [hA]

theorem bumpKind_keys_nodup (vals : List (String × Nat)) (k : String)
    (h : (vals.map (fun p => p.1)).Nodup) :
    ((bumpKind vals k).map (fun p => p.1)).Nodup := by
  rw [bumpKind_keys]
  cases hA : vals.any (fun p => p.1 == k) with
  | true => simpa [hA] using h
  | false =>
    have hk : k ∉ vals.map (fun p => p.1) := by
      intro hmem
      have := (any_key_iff vals k).mpr hmem
      rw [hA] at this
      exact absurd this (by simp)
    simp [hA, List.nodup_append, h, hk]

theorem addCell_entries_nodup
    (cells : List ((Nat × Nat) × List (String × Nat))) (key : Nat × Nat)
    (k : String) (h : ∀ c ∈ cells, (c.2.map (fun p => p.1)).Nodup) :
    ∀ c ∈ addCell cells key k, (c.2.map (fun p => p.1)).Nodup := by
  unfold addCell
  cases hA : cells.any (fun c => c.1 == key) with
  | true =>
    simp only [hA, if_true]
    intro c hc
    obtain ⟨c0, hc0, hceq⟩ := List.mem_map.mp hc
    by_cases hk : (c0.1 == key) = true
    · rw [← hceq]
      simp only [hk, if_true]
      exact bumpKind_keys_nodup c0.2 k (h c0 hc0)
    · simp only [Bool.not_eq_true] at hk
      rw [← hceq]
      simp only [hk, Bool.false_eq_true, if_false]
      exact h c0 hc0
  | false =>
    simp only [hA, Bool.false_eq_true, if_false]
    intro c hc
    rcases List.mem_append.mp hc with hmem | hmem
    · exact h c hmem
    · have : c = (key, bumpKind [] k) := by simpa using hmem
      rw [this]
      simp [bumpKind]

theorem assoc_find_of_mem {β γ : Type} [BEq β] [LawfulBEq β] :
    ∀ (l : List (β × γ)) (c : β × γ), (l.map (fun x => x.1)).Nodup → c ∈ l →
      l.find? (fun x => x.1 == c.1) = some c := by
  intro l c h hc
  induction l with
  | nil => simp at hc
  | cons a as ih =>
    rcases List.mem_cons.mp hc with rfl | hmem
    · simp [List.find?]
    · have hnd := h
      simp only [List.map_cons, List.nodup_cons] at hnd
      have ha : (a.1 == c.1) = false := by
        apply beq_eq_false_iff_ne.mpr
        intro hx
        exact hnd.1 (hx ▸ List.mem_map.mpr ⟨c, hmem, rfl⟩)
      simp only [List.find?, ha]
      exact ih hnd.2 hmem

theorem buildStep_inv (st : List String × List ((Nat × Nat) × List (String × Nat)))
    (P : List Edge3) (e : Edge3) (h : BuildInv P st) :
    BuildInv (P ++ [e]) (buildStep st e) := by
  obtain ⟨h1, h2, h3, h4, h5⟩ := h
  have hv1 : (buildStep st e).1 = (ensureVar (ensureVar st.1 e.1).1 e.2.1).1 := rfl
  have hv2 : (buildStep st e).2 =
    addCell st.2 ((ensureVar st.1 e.1).2, (ensureVar (ensureVar st.1 e.1).1 e.2.1).2)
      e.2.2 := rfl
  refine ⟨?_, ?_, ?_, ?_, ?_⟩
  · rw [hv1]
    exact ensureVar_nodup _ _ (ensureVar_nodup _ _ h1)
  · intro x hx
    rw [hv1]
    rcases List.mem_append.mp hx with hmem | hmem
    · obtain ⟨hm1, hm2⟩ := h2 x hmem
      exact ⟨ensureVar_mem _ _ _ (ensureVar_mem _ _ _ hm1),
        ensureVar_mem _ _ _ (ensureVar_mem _ _ _ hm2)⟩
    · have hxe : x = e := by simpa using hmem
      subst hxe
      exact ⟨ensureVar_mem _ _ _ (ensureVar_mem_self st.1 x.1),
        ensureVar_mem_self _ _⟩
  · rw [hv2]
    exact addCell_keys_nodup _ _ _ h3
  · rw [hv2]
    exact addCell_entries_nodup _ _ _ h4
  · intro s t k
    rw [hv1, hv2]
    have hs0 : varIdx (ensureVar (ensureVar st.1 e.1).1 e.2.1).1 e.1
        = some (ensureVar st.1 e.1).2 :=
      ensureVar_preserve _ _ _ _ (ensureVar_idx st.1 e.1)
    have ht0 : varIdx (ensureVar (ensureVar st.1 e.1).1 e.2.1).1 e.2.1
        = some (ensureVar (ensureVar st.1 e.1).1 e.2.1).2 :=
      ensureVar_idx _ _
    have hfilterP : (P.filter (fun x =>
        varIdx (ensureVar (ensureVar st.1 e.1).1 e.2.1).1 x.1 == some s &&
        varIdx (ensureVar (ensureVar st.1 e.1).1 e.2.1).1 x.2.1 == some t &&
        x.2.2 == k))
        = (P.filter (fun x =>
        varIdx st.1 x.1 == some s && varIdx st.1 x.2.1 == some t &&
        x.2.2 == k)) := by
      apply List.filter_congr
      intro x hx
      obtain ⟨hm1, hm2⟩ := h2 x hx
      obtain ⟨j1, hj1⟩ := Option.isSome_iff_exists.mp (varIdx_isSome_of_mem hm1)
      obtain ⟨j2, hj2⟩ := Option.isSome_iff_exists.mp (varIdx_isSome_of_mem hm2)
      have hj1' : varIdx (ensureVar (ensureVar st.1 e.1).1 e.2.1).1 x.1 = some j1 :=
        ensureVar_preserve _ _ _ _ (ensureVar_preserve _ _ _ _ hj1)
      have hj2' : varIdx (ensureVar (ensureVar st.1 e.1).1 e.2.1).1 x.2.1 = some j2 :=
        ensureVar_preserve _ _ _ _ (ensureVar_preserve _ _ _ _ hj2)
      rw [hj1, hj2, hj1', hj2']
    rw [List.filter_append, List.length_append, hfilterP]
    by_cases hmatch : s = (ensureVar st.1 e.1).2 ∧
        t = (ensureVar (ensureVar st.1 e.1).1 e.2.1).2 ∧ k = e.2.2
    · obtain ⟨rfl, rfl, rfl⟩ := hmatch
      rw [cellVal_addCell_self, h5]
      have he : (List.filter (fun x =>
          varIdx (ensureVar (ensureVar st.1 e.1).1 e.2.1).1 x.1 ==
              some (ensureVar st.1 e.1).2 &&
          varIdx (ensureVar (ensureVar st.1 e.1).1 e.2.1).1 x.2.1 ==
              some (ensureVar (ensureVar st.1 e.1).1 e.2.1).2 &&
          x.2.2 == e.2.2) [e]).length = 1 := by
        simp [List.filter, hs0, ht0]
      rw [he]
    · rw [cellVal_addCell_other]
      · rw [h5]
        have he : (List.filter (fun x =>
            varIdx (ensureVar (ensureVar st.1 e.1).1 e.2.1).1 x.1 == some s &&
            varIdx (ensureVar (ensureVar st.1 e.1).1 e.2.1).1 x.2.1 == some t &&
            x.2.2 == k) [e]).length = 0 := by
          simp only [List.filter, hs0, ht0, List.length_nil]
          by_cases hss : s = (ensureVar st.1 e.1).2
          · by_cases htt : t = (ensureVar (ensureVar st.1 e.1).1 e.2.1).2
            · have hkk : k ≠ e.2.2 := fun hx => hmatch ⟨hss, htt, hx⟩
              simp [hss, htt, beq_eq_false_iff_ne.mpr (Ne.symm hkk)]
            · simp [hss, beq_eq_false_iff_ne.mpr (fun hx => htt hx.symm)]
          · simp [beq_eq_false_iff_ne.mpr (fun hx => hss hx.symm)]
        rw [he]
        omega
      · intro hcon
        obtain ⟨hkeq, hkkeq⟩ := hcon
        have := Prod.mk.injEq .. ▸ hkeq
        apply hmatch
        refine ⟨?_, ?_, hkkeq⟩
        · exact congrArg Prod.fst hkeq
        · exact congrArg Prod.snd hkeq

theorem build_fold_inv :
    ∀ (edges P : List Edge3)
      (st : List String × List ((Nat × Nat) × List (String × Nat))),
      BuildInv P st → BuildInv (P ++ edges) (edges.foldl buildStep st) := by
  intro edges
  induction edges with
  | nil => intro P st h; simpa using h
  | cons e es ih =>
    intro P st h
    have h1 := buildStep_inv st P e h
    have h2 := ih (P ++ [e]) (buildStep st e) h1
    simpa [List.append_assoc] using h2

theorem filter_length_le_one {α : Type} {p : α → Bool} :
    ∀ (l : List α), l.Nodup →
      (∀ a ∈ l, ∀ b ∈ l, p a = true → p b = true → a = b) →
      (l.filter p).length ≤ 1 := by
  intro l
  induction l with
  | nil => simp
  | cons x xs ih =>
    intro hnd hall
    have hnd' := (List.nodup_cons.mp hnd)
    cases hx : p x with
    | false =>
      simp only [List.filter_cons, hx, Bool.false_eq_true, if_false]
      exact ih hnd'.2 (fun a ha b hb hpa hpb =>
        hall a (List.mem_cons_of_mem x ha) b (List.mem_cons_of_mem x hb) hpa hpb)
    | true =>
      have hempty : xs.filter p = [] := by
        cases hfe : xs.filter p with
        | nil => rfl
        | cons y ys =>
          exfalso
          have hy : y ∈ xs.filter p := by rw [hfe]; exact List.mem_cons_self y ys
          have hym := List.mem_filter.mp hy
          have : y = x := hall y (List.mem_cons_of_mem x hym.1) x
            (List.mem_cons_self x xs) hym.2 hx
          exact hnd'.1 (this ▸ hym.1)
      simp [List.filter_cons, hx, hempty]

theorem build_cell_count (edges : List Edge3) (nm : String) (cell : Dv8Cell)
    (p : String × Nat)
    (hc : cell ∈ (dv8_build_dependency_json nm edges).cells)
    (hp : p ∈ cell.values) :
    (dv8_build_dependency_json nm edges).vars.Nodup ∧
    p.2 = (edges.filter (fun x =>
      varIdx (dv8_build_dependency_json nm edges).vars x.1 == some cell.src &&
      varIdx (dv8_build_dependency_json nm edges).vars x.2.1 == some cell.dest &&
      x.2.2 == p.1)).length := by
  have hinv := build_fold_inv edges [] ([], [])
    ⟨List.nodup_nil, by simp, by simp, by simp, by
      intro s t k; simp [cellVal, List.find?]⟩
  simp only [List.nil_append] at hinv
  obtain ⟨hn1, _hn2, hn3, hn4, hn5⟩ := hinv
  have hvars : (dv8_build_dependency_json nm edges).vars
      = (edges.foldl buildStep ([], [])).1 := rfl
  have hcells : (dv8_build_dependency_json nm edges).cells
      = (sortBy (fun a b => cellKeyLE a.1 b.1)
          (edges.foldl buildStep ([], [])).2).map
          (fun c => { src := c.1.1, dest := c.1.2, values := c.2 }) := rfl
  rw [hcells] at hc
  obtain ⟨c0, hc0s, hceq⟩ := List.mem_map.mp hc
  have hc0 : c0 ∈ (edges.foldl buildStep ([], [])).2 := mem_sortBy.mp hc0s
  have hsrc : cell.src = c0.1.1 := by rw [← hceq]
  have hdest : cell.dest = c0.1.2 := by rw [← hceq]
  have hvals : cell.values = c0.2 := by rw [← hceq]
  rw [hvals] at hp
  have find1 := assoc_find_of_mem (edges.foldl buildStep ([], [])).2 c0 hn3 hc0
  have find2 := assoc_find_of_mem c0.2 p (hn4 c0 hc0) hp
  have hcv : cellVal (edges.foldl buildStep ([], [])).2 c0.1 p.1 = p.2 := by
    unfold cellVal valLookup
    rw [find1]
    show (match List.find? (fun x => x.1 == p.1) c0.2 with
      | some q => q.2
      | none => 0) = p.2
    rw [find2]
  refine ⟨by rw [hvars]; exact hn1, ?_⟩
  rw [hvars, hsrc, hdest, ← hcv]
  have : cellVal (edges.foldl buildStep ([], [])).2 (c0.1.1, c0.1.2) p.1
      = cellVal (edges.foldl buildStep ([], [])).2 c0.1 p.1 := rfl
  rw [← this, hn5 c0.1.1 c0.1.2 p.1]

/-- C6: in non-aligned mode the matrix assembler accumulates one cell per
(source, target) name pair with per-kind counts incremented by one per raw
edge — two `Call` edges plus one `Use` edge from `X` to `Y` produce exactly
one cell with values `Call ↦ 2, Use ↦ 1` — and in aligned mode, where the
edge list is first deduplicated to the unique `(src, tgt, kind)` set, no
kind count exceeds 1. -/
theorem c6_count_aggregation :
    ((dv8_build_dependency_json "deps"
        [("X", "Y", "Call"), ("X", "Y", "Call"), ("X", "Y", "Use")]).vars
      = ["X", "Y"] ∧
     (dv8_build_dependency_json "deps"
        [("X", "Y", "Call"), ("X", "Y", "Call"), ("X", "Y", "Use")]).cells
      = [{ src := 0, dest := 1, values := [("Call", 2), ("Use", 1)] }]) ∧
    (∀ (l : List Edge3) (nm : String) (cell : Dv8Cell) (p : String × Nat),
      cell ∈ (dv8_build_dependency_json nm (sortedDedup l)).cells →
      p ∈ cell.values → p.2 ≤ 1) := by
  refine ⟨⟨by decide, by decide⟩, ?_⟩
  intro l nm cell p hc hp
  obtain ⟨hnodup, hcount⟩ := build_cell_count (sortedDedup l) nm cell p hc hp
  rw [hcount]
  have hnd : (sortedDedup l).Nodup :=
    (sortBy_perm edgeLE l.dedup).nodup_iff.mpr (List.nodup_dedup l)
  apply filter_length_le_one _ hnd
  intro a ha b hb hpa hpb
  simp only [Bool.and_eq_true, beq_iff_eq] at hpa hpb
  obtain ⟨⟨ha1, ha2⟩, ha3⟩ := hpa
  obtain ⟨⟨hb1, hb2⟩, hb3⟩ := hpb
  obtain ⟨hlt1, hget1⟩ := varIdx_get _ _ _ ha1
  obtain ⟨hlt1', hget1'⟩ := varIdx_get _ _ _ hb1
  obtain ⟨hlt2, hget2⟩ := varIdx_get _ _ _ ha2
  obtain ⟨hlt2', hget2'⟩ := varIdx_get _ _ _ hb2
  obtain ⟨x1, x2, x3⟩ := a
  obtain ⟨y1, y2, y3⟩ := b
  simp only at ha3 hb3 hget1 hget1' hget2 hget2'
  congr 1
  · rw [← hget1, ← hget1']
  · congr 1
    · rw [← hget2, ← hget2']
    · rw [ha3, hb3]

/-- Witness for the aligned-mode bound of C6 at a concrete duplicate edge
list. -/
theorem c6_count_aggregation_witness :
    (⟨0, 1, [("Call", 1)]⟩ : Dv8Cell) ∈
      (dv8_build_dependency_json "deps"
        (sortedDedup [("X", "Y", "Call"), ("X", "Y", "Call")])).cells ∧
    (("Call", 1) : String × Nat).2 ≤ 1 :=
  ⟨by decide,
    c6_count_aggregation.2 [("X", "Y", "Call"), ("X", "Y", "Call")] "deps"
      ⟨0, 1, [("Call", 1)]⟩ ("Call", 1) (by decide) (by decide)⟩

/-- Counterexample to C2 as stated: in the aligned full-project export of
`lonelyClassDb`, the class `Lonely` is an in-scope node with a canonical
name, yet the exported matrix's variables list is empty — an in-scope Class
with zero surviving edges does not appear as a variable. -/
theorem c2_isolated_class_missing :
    isFocusEntity lonelyClassDb.entities cfgAlignedStructured 2 = true ∧
    structured_name lonelyClassDb.entities
      (fullCf lonelyClassDb.entities lonelyClassDb.deps
        (inFocus cfgAlignedStructured) "structured") 2
      = some "pkg/f.py/Lonely/self (Class)" ∧
    (fullProjectMatrix lonelyClassDb cfgAlignedStructured).vars = [] :=
  ⟨by decide, by decide, by decide⟩

theorem ensureVar_mem_inv (vars : List String) (v u : String)
    (h : u ∈ (ensureVar vars v).1) : u ∈ vars ∨ u = v := by
  unfold ensureVar at h
  cases hv : varIdx vars v with
  | some i => rw [hv] at h; exact Or.inl h
  | none =>
    rw [hv] at h
    rcases List.mem_append.mp h with hmem | hmem
    · exact Or.inl hmem
    · exact Or.inr (by simpa using hmem)

theorem vars_from_edges :
    ∀ (edges : List Edge3)
      (st : List String × List ((Nat × Nat) × List (String × Nat))),
      ∀ v ∈ (edges.foldl buildStep st).1,
        v ∈ st.1 ∨ ∃ e ∈ edges, v = e.1 ∨ v = e.2.1 := by
  intro edges
  induction edges with
  | nil => intro st v hv; exact Or.inl hv
  | cons e es ih =>
    intro st v hv
    rcases ih (buildStep st e) v hv with hmem | ⟨e', he', hv'⟩
    · have hmem1 : v ∈ (ensureVar (ensureVar st.1 e.1).1 e.2.1).1 := hmem
      rcases ensureVar_mem_inv _ _ _ hmem1 with hmem2 | rfl
      · rcases ensureVar_mem_inv _ _ _ hmem2 with hmem3 | rfl
        · exact Or.inl hmem3
        · exact Or.inr ⟨e, List.mem_cons_self e es, Or.inl rfl⟩
      · exact Or.inr ⟨e, List.mem_cons_self e es, Or.inr rfl⟩
    · exact Or.inr ⟨e', List.mem_cons_of_mem e he', hv'⟩

/-- C2 amended: unconditional node inclusion holds in the aligned
FILE-LEVEL export — every in-focus File appears as a variable even with
zero edges — whereas the entity-level matrix builder lists only nodes that
appear as an endpoint of some surviving edge, so an in-scope Class with no
surviving edges is absent there. -/
theorem c2_aligned_node_inclusion :
    (∀ (db : Db) (cfg : ExportCfg) (e : Entity), e ∈ db.entities →
      e.kind = "File" → inFocus cfg e.name = true →
      aligned_file_node e.name cfg.dv8Hierarchy ∈
        (export_dv8_file_level_aligned db cfg).vars) ∧
    (∀ (nm : String) (edges : List Edge3) (v : String),
      v ∈ (dv8_build_dependency_json nm edges).vars →
      ∃ e ∈ edges, v = e.1 ∨ v = e.2.1) := by
  constructor
  · intro db cfg e he hkind hfocus
    show aligned_file_node e.name cfg.dv8Hierarchy ∈
      (focusFileNames db.entities cfg).map
        (fun f => aligned_file_node f cfg.dv8Hierarchy)
    apply List.mem_map.mpr
    refine ⟨e.name, ?_, rfl⟩
    unfold focusFileNames
    have hmem : e.name ∈ (db.entities.filter
        (fun x => x.kind == "File" && inFocus cfg x.name)).map
        (fun x => x.name) :=
      List.mem_map.mpr ⟨e, List.mem_filter.mpr ⟨he, by simp [hkind, hfocus]⟩, rfl⟩
    by_cases hslash : strContainsChar e.name '/' = true
    · apply List.mem_append.mpr
      left
      exact mem_sortBy.mpr (List.mem_filter.mpr ⟨hmem, hslash⟩)
    · apply List.mem_append.mpr
      right
      apply mem_sortBy.mpr
      apply List.mem_filter.mpr
      refine ⟨hmem, ?_⟩
      simp only [Bool.not_eq_true] at hslash
      simp [hslash]
  · intro nm edges v hv
    have hv' : v ∈ (edges.foldl buildStep ([], [])).1 := hv
    rcases vars_from_edges edges ([], []) v hv' with hmem | hex
    · exact absurd hmem (by simp)
    · exact hex

/-- Witness for C2's amended statement: the focus file of `lonelyClassDb`
appears as a variable of the aligned file-level export although the fact
base has no dependency rows at all. -/
theorem c2_aligned_node_inclusion_witness :
    aligned_file_node "pkg/f.py" "structured" ∈
      (export_dv8_file_level_aligned lonelyClassDb cfgAlignedStructured).vars :=
  c2_aligned_node_inclusion.1 lonelyClassDb cfgAlignedStructured
    { id := 1, parentId := none, kind := "File", name := "pkg/f.py",
      contentId := 1, startRow := 0, endRow := 100 }
    (by decide) (by decide) (by decide)

/-! ### Lemmas about the class-folder recursion -/

theorem sdiff_insert_card_lt (S avoid : Finset Nat) (cid : Nat)
    (h1 : cid ∈ S) (h2 : cid ∉ avoid) :
    (S \ insert cid avoid).card < (S \ avoid).card := by
  apply Finset.card_lt_card
  rw [Finset.ssubset_iff_of_subset
    (Finset.sdiff_subset_sdiff (Finset.Subset.refl S)
      (Finset.subset_insert cid avoid))]
  exact ⟨cid, Finset.mem_sdiff.mpr ⟨h1, h2⟩, by simp⟩

theorem folderForClassAux_fuel_congr (es : List Entity) (inF : String → Bool)
    (lbo : Nat → Option Nat) :
    ∀ (f1 f2 : Nat) (avoid : Finset Nat) (cid : Nat),
      (classIds es inF \ avoid).card < f1 →
      (classIds es inF \ avoid).card < f2 →
      folderForClassAux es inF lbo f1 avoid cid
        = folderForClassAux es inF lbo f2 avoid cid := by
  intro f1
  induction f1 with
  | zero => intro f2 avoid cid h1 _; exact absurd h1 (Nat.not_lt_zero _)
  | succ a ih =>
    intro f2 avoid cid h1 h2
    cases f2 with
    | zero => exact absurd h2 (Nat.not_lt_zero _)
    | succ b =>
      simp only [folderForClassAux]
      cases hent : findEntity es cid with
      | none => rfl
      | some ent =>
        by_cases hguard : cid ∈ avoid ∨ cid ∉ classIds es inF
        · simp [hguard]
        · simp only [if_neg hguard]
          push_neg at hguard
          have hm : cid ∈ classIds es inF := hguard.2
          have hcard := sdiff_insert_card_lt (classIds es inF) avoid cid hm
            hguard.1
          cases hlex : lexicalParent es inF cid with
          | some pid =>
            dsimp only
            rw [ih b (insert cid avoid) pid (by omega) (by omega)]
          | none =>
            dsimp only
            cases hlbo : lbo cid with
            | some bid =>
              dsimp only
              rw [ih b (insert cid avoid) bid (by omega) (by omega)]
            | none => rfl

theorem folder_for_class_step (es : List Entity) (inF : String → Bool)
    (lbo : Nat → Option Nat) (avoid : Finset Nat) (cid : Nat) (ent : Entity)
    (hent : findEntity es cid = some ent) (hm : cid ∈ classIds es inF)
    (hav : cid ∉ avoid)
    (hbound : (classIds es inF \ avoid).card < (classIds es inF).card + 1) :
    folder_for_class es inF lbo avoid cid
      = (match lexicalParent es inF cid with
         | some pid =>
           folder_for_class es inF lbo (insert cid avoid) pid ++
             ["inner_classes", ent.name]
         | none =>
           match lbo cid with
           | some bid =>
             folder_for_class es inF lbo (insert cid avoid) bid ++
               ["subclasses", ent.name]
           | none => [ent.name]) := by
  unfold folder_for_class
  conv_lhs => rw [folderForClassAux]
  rw [hent]
  dsimp only
  have hguard : ¬(cid ∈ avoid ∨ cid ∉ classIds es inF) := by
    push_neg
    exact ⟨hav, hm⟩
  rw [if_neg hguard]
  have hcard := sdiff_insert_card_lt (classIds es inF) avoid cid hm hav
  have hsub : (classIds es inF \ avoid).card ≤ (classIds es inF).card :=
    Finset.card_le_card (Finset.sdiff_subset)
  cases hlex : lexicalParent es inF cid with
  | some pid =>
    dsimp only
    rw [folderForClassAux_fuel_congr es inF lbo (classIds es inF).card
      ((classIds es inF).card + 1) (insert cid avoid) pid (by omega) (by omega)]
  | none =>
    dsimp only
    cases hlbo : lbo cid with
    | some bid =>
      dsimp only
      rw [folderForClassAux_fuel_congr es inF lbo (classIds es inF).card
        ((classIds es inF).card + 1) (insert cid avoid) bid (by omega) (by omega)]
    | none => rfl

theorem folder_avoid_congr (es : List Entity) (inF : String → Bool)
    (depRows : List Dep) (rank : Nat → Nat)
    (hrank : ∀ cid ∈ classIds es inF,
      rankOk es depRows inF rank cid = true) :
    ∀ (n : Nat) (cid : Nat) (avoid : Finset Nat), rank cid ≤ n →
      (∀ a ∈ avoid, rank cid < rank a) →
      folder_for_class es inF (localBaseOf es depRows inF) avoid cid
        = folder_for_class es inF (localBaseOf es depRows inF) ∅ cid := by
  intro n
  induction n using Nat.strong_induction_on with
  | _ n ih =>
    intro cid avoid hle havoid
    cases hent : findEntity es cid with
    | none =>
      unfold folder_for_class
      simp only [folderForClassAux, hent]
    | some ent =>
      by_cases hm : cid ∈ classIds es inF
      · have hav : cid ∉ avoid := fun hmem => lt_irrefl _ (havoid cid hmem)
        have hsub : (classIds es inF \ avoid).card ≤ (classIds es inF).card :=
          Finset.card_le_card (Finset.sdiff_subset)
        have hsub0 : (classIds es inF \ (∅ : Finset Nat)).card
            ≤ (classIds es inF).card := by
          rw [Finset.sdiff_empty]
        rw [folder_for_class_step es inF _ avoid cid ent hent hm hav (by omega),
          folder_for_class_step es inF _ ∅ cid ent hent hm (by simp) (by omega)]
        have hr := hrank cid hm
        unfold rankOk at hr
        cases hlex : lexicalParent es inF cid with
        | some pid =>
          dsimp only
          rw [hlex] at hr
          have hrpid : rank pid < rank cid := by simpa using hr
          have havoid1 : ∀ a ∈ insert cid avoid, rank pid < rank a := by
            intro a ha
            rcases Finset.mem_insert.mp ha with rfl | ha
            · exact hrpid
            · exact lt_trans hrpid (havoid a ha)
          have havoid2 : ∀ a ∈ insert cid (∅ : Finset Nat),
              rank pid < rank a := by
            intro a ha
            rcases Finset.mem_insert.mp ha with rfl | ha
            · exact hrpid
            · exact absurd ha (Finset.not_mem_empty a)
          rw [ih (rank pid) (by omega) pid (insert cid avoid) le_rfl havoid1,
            ih (rank pid) (by omega) pid (insert cid (∅ : Finset Nat)) le_rfl
              havoid2]
        | none =>
          dsimp only
          rw [hlex] at hr
          cases hlbo : localBaseOf es depRows inF cid with
          | some bid =>
            dsimp only
            rw [hlbo] at hr
            have hrbid : rank bid < rank cid := by simpa using hr
            have havoid1 : ∀ a ∈ insert cid avoid, rank bid < rank a := by
              intro a ha
              rcases Finset.mem_insert.mp ha with rfl | ha
              · exact hrbid
              · exact lt_trans hrbid (havoid a ha)
            have havoid2 : ∀ a ∈ insert cid (∅ : Finset Nat),
                rank bid < rank a := by
              intro a ha
              rcases Finset.mem_insert.mp ha with rfl | ha
              · exact hrbid
              · exact absurd ha (Finset.not_mem_empty a)
            rw [ih (rank bid) (by omega) bid (insert cid avoid) le_rfl havoid1,
              ih (rank bid) (by omega) bid (insert cid (∅ : Finset Nat)) le_rfl
                havoid2]
          | none => rfl
      · unfold folder_for_class
        simp only [folderForClassAux, hent]
        have hguard1 : cid ∈ avoid ∨ cid ∉ classIds es inF := Or.inr hm
        have hguard2 : cid ∈ (∅ : Finset Nat) ∨ cid ∉ classIds es inF :=
          Or.inr hm
        rw [if_pos hguard1, if_pos hguard2]

/-- C4: on a fact base satisfying the spec's forest invariant (witnessed by
a rank strictly decreasing along nesting steps), the class-folder path of
every in-focus Class follows the exact precedence of
`_build_structured_class_folder_map`: (1) if the class's parent entity is a
Class of the same in-focus file, the path is the parent's path plus
`["inner_classes", name]`; (2) otherwise, with exactly one local base via
an Extend edge (self-extension excluded), the path is the base's path plus
`["subclasses", name]`; (3) otherwise — including a class with more than
one local base — the path is `[name]`.  The class-folder map is defined on
exactly the in-focus classes and returns these paths. -/
theorem c4_class_folder_precedence :
    ∀ (es : List Entity) (depRows : List Dep) (inF : String → Bool)
      (rank : Nat → Nat),
      (∀ cid ∈ classIds es inF, rankOk es depRows inF rank cid = true) →
      (∀ (cid : Nat) (ent : Entity) (pid : Nat),
        findEntity es cid = some ent → cid ∈ classIds es inF →
        lexicalParent es inF cid = some pid →
        folder_for_class es inF (localBaseOf es depRows inF) ∅ cid
          = folder_for_class es inF (localBaseOf es depRows inF) ∅ pid ++
            ["inner_classes", ent.name]) ∧
      (∀ (cid : Nat) (ent : Entity) (bid : Nat),
        findEntity es cid = some ent → cid ∈ classIds es inF →
        lexicalParent es inF cid = none →
        localBaseOf es depRows inF cid = some bid →
        folder_for_class es inF (localBaseOf es depRows inF) ∅ cid
          = folder_for_class es inF (localBaseOf es depRows inF) ∅ bid ++
            ["subclasses", ent.name]) ∧
      (∀ (cid : Nat) (ent : Entity),
        findEntity es cid = some ent → cid ∈ classIds es inF →
        lexicalParent es inF cid = none →
        (localBases es depRows inF cid).length ≠ 1 →
        folder_for_class es inF (localBaseOf es depRows inF) ∅ cid
          = [ent.name]) ∧
      (∀ cid : Nat, classFolderLookup es inF (localBaseOf es depRows inF) cid
          = if cid ∈ classIds es inF then
              some (folder_for_class es inF (localBaseOf es depRows inF) ∅ cid)
            else none) := by
  intro es depRows inF rank hrank
  have hbound0 : (classIds es inF \ (∅ : Finset Nat)).card
      < (classIds es inF).card + 1 := by
    rw [Finset.sdiff_empty]
    omega
  refine ⟨?_, ?_, ?_, ?_⟩
  · intro cid ent pid hent hm hlex
    rw [folder_for_class_step es inF _ ∅ cid ent hent hm (by simp) hbound0,
      hlex]
    dsimp only
    congr 1
    have hr := hrank cid hm
    unfold rankOk at hr
    rw [hlex] at hr
    have hrpid : rank pid < rank cid := by simpa using hr
    apply folder_avoid_congr es inF depRows rank hrank (rank pid) pid _ le_rfl
    intro a ha
    rcases Finset.mem_insert.mp ha with rfl | ha
    · exact hrpid
    · exact absurd ha (Finset.not_mem_empty a)
  · intro cid ent bid hent hm hlex hlbo
    rw [folder_for_class_step es inF _ ∅ cid ent hent hm (by simp) hbound0,
      hlex]
    dsimp only
    rw [hlbo]
    dsimp only
    congr 1
    have hr := hrank cid hm
    unfold rankOk at hr
    rw [hlex, hlbo] at hr
    have hrbid : rank bid < rank cid := by simpa using hr
    apply folder_avoid_congr es inF depRows rank hrank (rank bid) bid _ le_rfl
    intro a ha
    rcases Finset.mem_insert.mp ha with rfl | ha
    · exact hrbid
    · exact absurd ha (Finset.not_mem_empty a)
  · intro cid ent hent hm hlex hbases
    have hlbo : localBaseOf es depRows inF cid = none := by
      unfold localBaseOf
      simp [hbases]
    rw [folder_for_class_step es inF _ ∅ cid ent hent hm (by simp) hbound0,
      hlex]
    dsimp only
    rw [hlbo]
  · intro cid
    rfl

/-- Witness for C4: in the representative fact base, `B` is lexically
nested in `A`, so its folder path is `A`'s path plus
`["inner_classes", "B"]`; the rank hypothesis is discharged with the
identity rank on entity ids. -/
theorem c4_class_folder_precedence_witness :
    folder_for_class repNamingEntities (inFocus cfgAlignedStructured)
      (localBaseOf repNamingEntities repNamingDeps
        (inFocus cfgAlignedStructured)) ∅ 3
      = folder_for_class repNamingEntities (inFocus cfgAlignedStructured)
          (localBaseOf repNamingEntities repNamingDeps
            (inFocus cfgAlignedStructured)) ∅ 2 ++ ["inner_classes", "B"] :=
  (c4_class_folder_precedence repNamingEntities repNamingDeps
    (inFocus cfgAlignedStructured) (fun cid => cid) (by decide)).1
    3 { id := 3, parentId := some 2, kind := "Class", name := "B",
        contentId := 1, startRow := 2, endRow := 10 } 2
    (by decide) (by decide) (by decide)

/-- C1 at the failing input: both aligned exports keep the `Use` edge from
method `A.m` to field `B.x` although `B`, the field's owner class, is not
an ancestor of `m` (a cross-object attribute read).  The full-project
filter only checks that the source has some Class ancestor, and the
per-file filter performs no ownership check at all, contradicting the
"self-field access only" rule of the alignment table (and of the module's
own docstring). -/
theorem c1_use_cross_object_kept :
    fullProjectEdges crossUseDb cfgAlignedStructured
      = [("pkg/f.py/A/methods/m (Method)", "pkg/f.py/B/fields/x (Field)",
          "Use")] ∧
    perFileEdges crossUseDb perFileAligned 1 "pkg/f.py"
      = [("pkg/f.py/A/methods/m (Method)", "pkg/f.py/B/fields/x (Field)",
          "Use")] ∧
    specFieldOwnerIsAncestor crossUseDb.entities 3 5 = false ∧
    (owner_class_entity crossUseDb.entities 3).isSome = true :=
  ⟨by decide, by decide, by decide, by decide⟩

/-- C3 at the failing input: the aligned full-project export keeps the
`Call` edge from module-level Function `helper` to `A.__init__` — the
constructor-call filter only rejects Method sources whose name is not a
constructor hook, letting Function sources through — while the per-file
export rejects the same edge, as the claim (and the code's own comment)
requires. -/
theorem c3_function_constructor_call_kept :
    fullProjectEdges ctorCallDb cfgAlignedStructured
      = [("pkg/f.py/functions/helper (Function)",
          "pkg/f.py/A/constructors/__init__ (Constructor)", "Call")] ∧
    (findEntity ctorCallDb.entities 4).map (fun e => e.kind)
      = some "Function" ∧
    (findEntity ctorCallDb.entities 3).map (fun e => (e.kind, e.name))
      = some ("Method", "__init__") ∧
    perFileEdges ctorCallDb perFileAligned 1 "pkg/f.py" = [] :=
  ⟨by decide, by decide, by decide, by decide⟩

theorem findEntity_id {es : List Entity} {i : Nat} {e : Entity}
    (h : findEntity es i = some e) : e.id = i := by
  have := List.find?_some h
  exact beq_iff_eq.mp this

/-- C10: in the aligned full-project export a core-kind edge is dropped
when its source is a nested helper, and also when its target is one; a
Method/Function whose enclosing Method/Function parent has the same name is
a duplicate-tagging artifact — that parent link is skipped, so with the
class (or file) directly above the duplicate the entity is not nested,
while a different-named enclosing Method/Function above the duplicate still
makes it nested. -/
theorem c10_nested_helper_drop :
    (∀ (es : List Entity) (cf : Option (Nat → Option (List String)))
        (lbd : Option (Nat → Option String)) (cfg : ExportCfg) (d : Dep)
        (srcEnt : Entity),
      cfg.alignHandcount = true →
      findEntity es d.src = some srcEnt →
      (srcEnt.kind = "Method" ∨ srcEnt.kind = "Function") →
      is_nested_method es d.src = true →
      entityLevelEdge es cf lbd cfg d = none) ∧
    (∀ (es : List Entity) (cf : Option (Nat → Option (List String)))
        (lbd : Option (Nat → Option String)) (cfg : ExportCfg) (d : Dep)
        (tgtEnt : Entity),
      cfg.alignHandcount = true →
      findEntity es d.tgt = some tgtEnt →
      (tgtEnt.kind = "Method" ∨ tgtEnt.kind = "Function") →
      is_nested_method es d.tgt = true →
      entityLevelEdge es cf lbd cfg d = none) ∧
    (∀ (es : List Entity) (eid pid gid : Nat) (e p g : Entity),
      findEntity es eid = some e →
      (e.kind = "Method" ∨ e.kind = "Function") →
      e.parentId = some pid → pid ≠ eid →
      findEntity es pid = some p →
      (p.kind = "Method" ∨ p.kind = "Function") → p.name = e.name →
      p.parentId = some gid →
      findEntity es gid = some g →
      (g.kind = "Class" ∨ g.kind = "File") →
      is_nested_method es eid = false) ∧
    (∀ (es : List Entity) (eid pid gid : Nat) (e p g : Entity),
      findEntity es eid = some e →
      (e.kind = "Method" ∨ e.kind = "Function") →
      e.parentId = some pid → pid ≠ eid →
      findEntity es pid = some p →
      (p.kind = "Method" ∨ p.kind = "Function") → p.name = e.name →
      p.parentId = some gid →
      findEntity es gid = some g →
      (g.kind = "Method" ∨ g.kind = "Function") → g.name ≠ e.name →
      is_nested_method es eid = true) := by
  refine ⟨?_, ?_, ?_, ?_⟩
  · intro es cf lbd cfg d srcEnt halign hfind hkind hnested
    unfold entityLevelEdge
    rw [hfind]
    by_cases hfocus : isFocusEntity es cfg d.src
    · simp only [hfocus, Bool.not_true, Bool.false_eq_true, if_false]
      cases hft : findEntity es d.tgt with
      | none => rfl
      | some tgtEnt =>
        have hid : srcEnt.id = d.src := findEntity_id hfind
        have hgate : fullAlignGate es srcEnt tgtEnt d.src d.kind = false := by
          unfold fullAlignGate
          have hconj : ((srcEnt.kind == "Method" || srcEnt.kind == "Function")
              && is_nested_method es srcEnt.id) = true := by
            rw [hid]
            rcases hkind with h | h <;> simp [h, hnested]
          simp [hconj]
        simp [halign, hgate]
    · simp [hfocus]
  · intro es cf lbd cfg d tgtEnt halign hfind hkind hnested
    unfold entityLevelEdge
    cases hfs : findEntity es d.src with
    | none => rfl
    | some srcEnt =>
      by_cases hfocus : isFocusEntity es cfg d.src
      · simp only [hfocus, Bool.not_true, Bool.false_eq_true, if_false]
        rw [hfind]
        have hid : tgtEnt.id = d.tgt := findEntity_id hfind
        have hgate : fullAlignGate es srcEnt tgtEnt d.src d.kind = false := by
          unfold fullAlignGate
          have hconj : ((tgtEnt.kind == "Method" || tgtEnt.kind == "Function")
              && is_nested_method es tgtEnt.id) = true := by
            rw [hid]
            rcases hkind with h | h <;> simp [h, hnested]
          simp [hconj]
        simp [halign, hgate]
      · simp [hfocus]
  · intro es eid pid gid e p g hfe hek hepar hne hfp hpk hpname hppar hfg hgk
    unfold is_nested_method
    rw [hfe]
    dsimp only
    have hekb : (e.kind == "Method" || e.kind == "Function") = true := by
      rcases hek with h | h <;> simp [h]
    rw [if_pos hekb]
    have hfuel : es.length + 2 = (es.length + 1) + 1 := rfl
    rw [hfuel]
    unfold isNestedAux
    rw [hepar]
    dsimp only
    rw [hfp]
    dsimp only
    have heid : e.id = eid := findEntity_id hfe
    have hseen1 : ([] : List Nat).contains e.id = false := rfl
    rw [hseen1]
    simp only [Bool.false_eq_true, if_false]
    have hpkb : (p.kind == "Method" || p.kind == "Function") = true := by
      rcases hpk with h | h <;> simp [h]
    rw [if_pos hpkb]
    have hpnb : (p.name == e.name) = true := beq_iff_eq.mpr hpname
    rw [if_pos hpnb]
    unfold isNestedAux
    rw [hppar]
    dsimp only
    rw [hfg]
    dsimp only
    have hpid : p.id = pid := findEntity_id hfp
    have hseen2 : ([e.id] : List Nat).contains p.id = false := by
      rw [heid, hpid]
      simp [hne]
    rw [hseen2]
    simp only [Bool.false_eq_true, if_false]
    have hgkb : (g.kind == "Method" || g.kind == "Function") = false := by
      rcases hgk with h | h <;> simp [h]
    rw [hgkb]
    simp only [Bool.false_eq_true, if_false]
    have hgcf : (g.kind == "Class" || g.kind == "File") = true := by
      rcases hgk with h | h <;> simp [h]
    rw [if_pos hgcf]
  · intro es eid pid gid e p g hfe hek hepar hne hfp hpk hpname hppar hfg hgk
      hgname
    unfold is_nested_method
    rw [hfe]
    dsimp only
    have hekb : (e.kind == "Method" || e.kind == "Function") = true := by
      rcases hek with h | h <;> simp [h]
    rw [if_pos hekb]
    have hfuel : es.length + 2 = (es.length + 1) + 1 := rfl
    rw [hfuel]
    unfold isNestedAux
    rw [hepar]
    dsimp only
    rw [hfp]
    dsimp only
    have heid : e.id = eid := findEntity_id hfe
    have hseen1 : ([] : List Nat).contains e.id = false := rfl
    rw [hseen1]
    simp only [Bool.false_eq_true, if_false]
    have hpkb : (p.kind == "Method" || p.kind == "Function") = true := by
      rcases hpk with h | h <;> simp [h]
    rw [if_pos hpkb]
    have hpnb : (p.name == e.name) = true := beq_iff_eq.mpr hpname
    rw [if_pos hpnb]
    unfold isNestedAux
    rw [hppar]
    dsimp only
    rw [hfg]
    dsimp only
    have hpid : p.id = pid := findEntity_id hfp
    have hseen2 : ([e.id] : List Nat).contains p.id = false := by
      rw [heid, hpid]
      simp [hne]
    rw [hseen2]
    simp only [Bool.false_eq_true, if_false]
    have hgkb : (g.kind == "Method" || g.kind == "Function") = true := by
      rcases hgk with h | h <;> simp [h]
    rw [if_pos hgkb]
    have hgnb : (g.name == e.name) = false := beq_eq_false_iff_ne.mpr hgname
    rw [hgnb]
    simp

/-- Witness for C10 on `nestedHelperDb`: the Use edge whose source is the
genuine nested helper `inner` is dropped, and the duplicate-tagged
`with_mask` (same-named Method parent directly under the class) is not
considered nested. -/
theorem c10_nested_helper_drop_witness :
    entityLevelEdge nestedHelperEntities
      (fullCf nestedHelperEntities nestedHelperDb.deps
        (inFocus cfgAlignedStructured) "structured")
      (fullLbd nestedHelperEntities nestedHelperDb.deps
        (inFocus cfgAlignedStructured) "structured")
      cfgAlignedStructured
      { src := 4, tgt := 7, kind := "Use", row := 4, commitId := none }
      = none ∧
    is_nested_method nestedHelperEntities 6 = false :=
  ⟨c10_nested_helper_drop.1 nestedHelperEntities
      (fullCf nestedHelperEntities nestedHelperDb.deps
        (inFocus cfgAlignedStructured) "structured")
      (fullLbd nestedHelperEntities nestedHelperDb.deps
        (inFocus cfgAlignedStructured) "structured")
      cfgAlignedStructured
      { src := 4, tgt := 7, kind := "Use", row := 4, commitId := none }
      { id := 4, parentId := some 3, kind := "Function", name := "inner",
        contentId := 1, startRow := 3, endRow := 5 }
      (by decide) (by decide) (Or.inr (by decide)) (by decide),
    c10_nested_helper_drop.2.2.1 nestedHelperEntities 6 5 2
      { id := 6, parentId := some 5, kind := "Method", name := "with_mask",
        contentId := 1, startRow := 11, endRow := 20 }
      { id := 5, parentId := some 2, kind := "Method", name := "with_mask",
        contentId := 1, startRow := 11, endRow := 20 }
      { id := 2, parentId := some 1, kind := "Class", name := "A",
        contentId := 1, startRow := 1, endRow := 40 }
      (by decide) (Or.inl (by decide)) (by decide) (by decide) (by decide)
      (Or.inl (by decide)) (by decide) (by decide) (by decide)
      (Or.inl (by decide))⟩

/-! ### Malformed-edge invariance lemmas -/

theorem focusClassFileId_none_of_missing {es : List Entity}
    {inF : String → Bool} {x : Nat} (h : findEntity es x = none) :
    focusClassFileId es inF x = none := by
  unfold focusClassFileId
  rw [h]

theorem localBases_malformed (es : List Entity) (inF : String → Bool)
    (l₁ l₂ : List Dep) (d : Dep)
    (h : findEntity es d.src = none ∨ findEntity es d.tgt = none) :
    ∀ cid, localBases es (l₁ ++ d :: l₂) inF cid
      = localBases es (l₁ ++ l₂) inF cid := by
  intro cid
  unfold localBases
  congr 1
  rw [List.filterMap_append, List.filterMap_append]
  congr 1
  apply List.filterMap_cons_none
  rcases h with h | h <;>
    simp [focusClassFileId_none_of_missing h]

theorem localBasesFlat_malformed (es : List Entity) (inF : String → Bool)
    (l₁ l₂ : List Dep) (d : Dep)
    (h : findEntity es d.src = none ∨ findEntity es d.tgt = none) :
    ∀ cid, localBasesFlat es (l₁ ++ d :: l₂) inF cid
      = localBasesFlat es (l₁ ++ l₂) inF cid := by
  intro cid
  unfold localBasesFlat
  congr 1
  rw [List.filterMap_append, List.filterMap_append]
  congr 1
  apply List.filterMap_cons_none
  rcases h with h | h <;>
    simp [focusClassFileId_none_of_missing h]

theorem localBaseOf_malformed (es : List Entity) (inF : String → Bool)
    (l₁ l₂ : List Dep) (d : Dep)
    (h : findEntity es d.src = none ∨ findEntity es d.tgt = none) :
    localBaseOf es (l₁ ++ d :: l₂) inF = localBaseOf es (l₁ ++ l₂) inF := by
  funext cid
  unfold localBaseOf
  rw [localBases_malformed es inF l₁ l₂ d h cid]

theorem localBaseDotted_malformed (es : List Entity) (inF : String → Bool)
    (l₁ l₂ : List Dep) (d : Dep)
    (h : findEntity es d.src = none ∨ findEntity es d.tgt = none) :
    localBaseDottedLookup es (l₁ ++ d :: l₂) inF
      = localBaseDottedLookup es (l₁ ++ l₂) inF := by
  funext cid
  unfold localBaseDottedLookup
  rw [localBasesFlat_malformed es inF l₁ l₂ d h cid]

theorem fullCf_malformed (es : List Entity) (inF : String → Bool)
    (hier : String) (l₁ l₂ : List Dep) (d : Dep)
    (h : findEntity es d.src = none ∨ findEntity es d.tgt = none) :
    fullCf es (l₁ ++ d :: l₂) inF hier = fullCf es (l₁ ++ l₂) inF hier := by
  unfold fullCf
  rw [localBaseOf_malformed es inF l₁ l₂ d h]

theorem fullLbd_malformed (es : List Entity) (inF : String → Bool)
    (hier : String) (l₁ l₂ : List Dep) (d : Dep)
    (h : findEntity es d.src = none ∨ findEntity es d.tgt = none) :
    fullLbd es (l₁ ++ d :: l₂) inF hier = fullLbd es (l₁ ++ l₂) inF hier := by
  unfold fullLbd
  rw [localBaseDotted_malformed es inF l₁ l₂ d h]

/-- C9: a dependency edge whose source or target id is absent from the
entities relation is skipped by every matrix export path — it yields no
edge in the file-level loop, the entity-level loop, either loop of
`export_dv8_file_level`, or the per-file loop — and removing such a row
from the fact base leaves the full-project edge list unchanged (it
contributes no cell and no variable, and the export does not fail). -/
theorem c9_malformed_edges_skipped :
    (∀ (es : List Entity) (cfg : ExportCfg) (d : Dep),
      (findEntity es d.src = none ∨ findEntity es d.tgt = none) →
      fileLevelEdge es cfg d = none) ∧
    (∀ (es : List Entity) (cf : Option (Nat → Option (List String)))
        (lbd : Option (Nat → Option String)) (cfg : ExportCfg) (d : Dep),
      (findEntity es d.src = none ∨ findEntity es d.tgt = none) →
      entityLevelEdge es cf lbd cfg d = none) ∧
    (∀ (es : List Entity) (cfg : ExportCfg) (d : Dep),
      (findEntity es d.src = none ∨ findEntity es d.tgt = none) →
      flEdge es cfg d = none ∧ flFallbackEdge es cfg d = none) ∧
    (∀ (es : List Entity) (ids : List Nat)
        (cf : Option (Nat → Option (List String)))
        (lbd : Option (Nat → Option String)) (pcfg : PerFileCfg) (d : Dep),
      (findEntity es d.src = none ∨ findEntity es d.tgt = none) →
      perFileEdge es ids cf lbd pcfg d = none) ∧
    (∀ (db : Db) (cfg : ExportCfg) (l₁ l₂ : List Dep) (d : Dep),
      (findEntity db.entities d.src = none ∨
        findEntity db.entities d.tgt = none) →
      fullProjectEdges { db with deps := l₁ ++ d :: l₂ } cfg
        = fullProjectEdges { db with deps := l₁ ++ l₂ } cfg) := by
  have hfile : ∀ (es : List Entity) (cfg : ExportCfg) (d : Dep),
      (findEntity es d.src = none ∨ findEntity es d.tgt = none) →
      fileLevelEdge es cfg d = none := by
    intro es cfg d h
    unfold fileLevelEdge
    rcases h with h | h
    · rw [h]
    · rw [h]
      cases findEntity es d.src <;> rfl
  have hentity : ∀ (es : List Entity)
      (cf : Option (Nat → Option (List String)))
      (lbd : Option (Nat → Option String)) (cfg : ExportCfg) (d : Dep),
      (findEntity es d.src = none ∨ findEntity es d.tgt = none) →
      entityLevelEdge es cf lbd cfg d = none := by
    intro es cf lbd cfg d h
    unfold entityLevelEdge
    rcases h with h | h
    · rw [h]
    · cases hs : findEntity es d.src with
      | none => rfl
      | some srcEnt =>
        by_cases hfocus : isFocusEntity es cfg d.src
        · simp only [hfocus, Bool.not_true, Bool.false_eq_true, if_false]
          rw [h]
        · simp [hfocus]
  refine ⟨hfile, hentity, ?_, ?_, ?_⟩
  · intro es cfg d h
    constructor
    · unfold flEdge
      rcases h with h | h
      · rw [h]
      · rw [h]
        cases findEntity es d.src <;> rfl
    · unfold flFallbackEdge
      by_cases hk : coreKinds.contains d.kind = true
      · simp only [hk, Bool.not_true, Bool.false_eq_true, if_false]
        rcases h with h | h
        · rw [h]
        · rw [h]
          cases findEntity es d.src <;> rfl
      · simp only [Bool.not_eq_true] at hk
        simp only [hk, Bool.not_false, if_true]
  · intro es ids cf lbd pcfg d h
    unfold perFileEdge
    rcases h with h | h
    · rw [h]
    · rw [h]
      cases findEntity es d.src <;> rfl
  · intro db cfg l₁ l₂ d h
    unfold fullProjectEdges
    have h1 : (l₁ ++ d :: l₂).filterMap (fileLevelEdge db.entities cfg)
        = (l₁ ++ l₂).filterMap (fileLevelEdge db.entities cfg) := by
      rw [List.filterMap_append, List.filterMap_append]
      congr 1
      exact List.filterMap_cons_none (hfile db.entities cfg d h)
    have hcf := fullCf_malformed db.entities (inFocus cfg) cfg.dv8Hierarchy
      l₁ l₂ d h
    have hlbd := fullLbd_malformed db.entities (inFocus cfg) cfg.dv8Hierarchy
      l₁ l₂ d h
    have h2 : (l₁ ++ d :: l₂).filterMap (entityLevelEdge db.entities
        (fullCf db.entities (l₁ ++ d :: l₂) (inFocus cfg) cfg.dv8Hierarchy)
        (fullLbd db.entities (l₁ ++ d :: l₂) (inFocus cfg) cfg.dv8Hierarchy)
        cfg)
        = (l₁ ++ l₂).filterMap (entityLevelEdge db.entities
        (fullCf db.entities (l₁ ++ l₂) (inFocus cfg) cfg.dv8Hierarchy)
        (fullLbd db.entities (l₁ ++ l₂) (inFocus cfg) cfg.dv8Hierarchy)
        cfg) := by
      rw [hcf, hlbd, List.filterMap_append, List.filterMap_append]
      congr 1
      exact List.filterMap_cons_none (hentity db.entities _ _ cfg d h)
    simp only [h1, h2]

/-- Witness for C9: a dangling `Call` row (both endpoints absent from a
one-file fact base) produces no edge in any export path. -/
theorem c9_malformed_edges_skipped_witness :
    entityLevelEdge lonelyClassDb.entities none none cfgAlignedStructured
      { src := 7, tgt := 8, kind := "Call", row := 0, commitId := none }
      = none ∧
    perFileEdge lonelyClassDb.entities [1, 2] none none perFileAligned
      { src := 7, tgt := 8, kind := "Call", row := 0, commitId := none }
      = none :=
  ⟨c9_malformed_edges_skipped.2.1 lonelyClassDb.entities none none
      cfgAlignedStructured
      { src := 7, tgt := 8, kind := "Call", row := 0, commitId := none }
      (Or.inl (by decide)),
    c9_malformed_edges_skipped.2.2.2.1 lonelyClassDb.entities [1, 2] none none
      perFileAligned
      { src := 7, tgt := 8, kind := "Call", row := 0, commitId := none }
      (Or.inl (by decide))⟩

/-- Counterexample to C7 as stated: two distinct duplicate-tagged Method
entities (ids 3 and 4, both named `m` under class `A`) both produce a name
and are exported — their shared name appears in the aligned export's
variables — yet their canonical names coincide under each of the three
schemes, so no scheme's name function is injective over exported
entities. -/
theorem c7_name_collision :
    (3 : Nat) ≠ 4 ∧
    structured_name dupMethodEntities
      (fullCf dupMethodEntities dupMethodDb.deps
        (inFocus cfgAlignedStructured) "structured") 3
      = some "f.py/A/methods/m (Method)" ∧
    structured_name dupMethodEntities
      (fullCf dupMethodEntities dupMethodDb.deps
        (inFocus cfgAlignedStructured) "structured") 4
      = some "f.py/A/methods/m (Method)" ∧
    flat_name dupMethodEntities
      (some (localBaseDottedLookup dupMethodEntities dupMethodDb.deps
        (inFocus cfgAlignedStructured))) 3
      = flat_name dupMethodEntities
        (some (localBaseDottedLookup dupMethodEntities dupMethodDb.deps
          (inFocus cfgAlignedStructured))) 4 ∧
    (flat_name dupMethodEntities
      (some (localBaseDottedLookup dupMethodEntities dupMethodDb.deps
        (inFocus cfgAlignedStructured))) 3).isSome = true ∧
    handcount_name dupMethodEntities 3 = handcount_name dupMethodEntities 4 ∧
    (handcount_name dupMethodEntities 3).isSome = true ∧
    "f.py/A/methods/m (Method)" ∈
      (fullProjectMatrix dupMethodDb cfgAlignedStructured).vars :=
  ⟨by decide, by decide, by decide, by decide, by decide, by decide,
    by decide, by decide⟩

/-- C7 amended: the canonical name functions deliberately identify
duplicate-tagged entities (same kind, name, and owner) and are therefore
not injective over all exported entities; restricted to a fact base free of
such coincidences — here a representative base exercising file, root
class, inner class, local subclass, method, constructor, field, and module
function — each of the three schemes assigns pairwise distinct names to
every entity that produces one. -/
theorem c7_injectivity_representative :
    (([1, 2, 3, 4, 5, 6, 7, 8, 9].filterMap
      (structured_name repNamingEntities
        (fullCf repNamingEntities repNamingDeps
          (inFocus cfgAlignedStructured) "structured"))).Nodup ∧
     ([1, 2, 3, 4, 5, 6, 7, 8, 9].filterMap
      (structured_name repNamingEntities
        (fullCf repNamingEntities repNamingDeps
          (inFocus cfgAlignedStructured) "structured"))).length = 9) ∧
    (([1, 2, 3, 4, 5, 6, 7, 8, 9].filterMap
      (flat_name repNamingEntities
        (some (localBaseDottedLookup repNamingEntities repNamingDeps
          (inFocus cfgAlignedStructured))))).Nodup ∧
     ([1, 2, 3, 4, 5, 6, 7, 8, 9].filterMap
      (flat_name repNamingEntities
        (some (localBaseDottedLookup repNamingEntities repNamingDeps
          (inFocus cfgAlignedStructured))))).length = 9) ∧
    (([1, 2, 3, 4, 5, 6, 7, 8, 9].filterMap
      (handcount_name repNamingEntities)).Nodup ∧
     ([1, 2, 3, 4, 5, 6, 7, 8, 9].filterMap
      (handcount_name repNamingEntities)).length = 9) :=
  ⟨⟨by decide, by decide⟩, ⟨by decide, by decide⟩, ⟨by decide, by decide⟩⟩

end NeoDepends
